import Mathlib

/-!
# shermie-proxy: a verification development

A shallow embedding of the interception engine of `Core/` (the dispatcher of
`ProxyServer.go`, the header handling, the MITM response path, the dialer and
the handshake fallback of `ProxyHttp.go`, the negotiation and the pumps of
`ProxySocks5.go`), followed by theorems about it.

Conventions.  A byte is a `Nat` below 256, a Go `string` is a `String` (its
characters are the bytes; every string handled below is ASCII), a Go `error`
is a `Bool` or an `Option` that records whether the error is nil, and what the
network does (what a read returns, whether a dial succeeds, what a hook
answers) is an explicit argument of the function that meets it.
-/

set_option autoImplicit false

namespace Core

/-! ## Go library functions the source calls (`strings`, `net/textproto`) -/

/-- The bytes of a Go string. -/
def stringBytes (s : String) : List Nat := s.data.map Char.toNat

/-- Go `string(buffer)`. -/
def bytesString (buffer : List Nat) : String := String.mk (buffer.map Char.ofNat)

/-- Go `strings.Split(s, sep)` on character lists: `skip` counts the characters
of a separator just matched that are still to be dropped, `acc` holds the current
piece in reverse. -/
def splitGo (sep : List Char) : Nat → List Char → List Char → List (List Char)
  | _, acc, [] => [acc.reverse]
  | skip + 1, acc, _ :: cs => splitGo sep skip acc cs
  | 0, acc, c :: cs =>
    if sep.isPrefixOf (c :: cs) then acc.reverse :: splitGo sep (sep.length - 1) [] cs
    else splitGo sep 0 (c :: acc) cs

/-- Go `strings.Split`: the pieces of `s` between the occurrences of `sep`
(`[s]` when there is none; one piece per character when `sep` is empty). -/
def Split (s sep : String) : List String :=
  if sep.data = [] then s.data.map (fun c => String.mk [c])
  else (splitGo sep.data 0 [] s.data).map String.mk

/-- Go `strings.Trim(s, cutset)`: `s` without its leading and trailing
characters that occur in `cutset`. -/
def Trim (s cutset : String) : String :=
  String.mk ((s.data.dropWhile cutset.data.contains).reverse.dropWhile cutset.data.contains).reverse

/-- Go `strings.EqualFold` on ASCII strings: equality up to letter case. -/
def EqualFold (s t : String) : Bool :=
  s.data.map Char.toLower == t.data.map Char.toLower

/-- Go `strings.Contains`. -/
def Contains (s sub : String) : Bool :=
  s.data.tails.any sub.data.isPrefixOf

/-- The `validHeaderFieldByte` of `net/textproto`: the token characters of RFC 7230. -/
def validHeaderFieldByte (c : Char) : Bool :=
  c.isAlphanum ||
    [33, 35, 36, 37, 38, 39, 42, 43, 45, 46, 94, 95, 96, 124, 126].contains c.toNat

/-- The letter-case pass of `canonicalMIMEHeaderKey`: upper case at the start
and after each dash, lower case elsewhere. -/
def canonicalBytes : Bool → List Char → List Char
  | _, [] => []
  | upper, c :: cs =>
    let d := if upper && c.isLower then c.toUpper
      else if !upper && c.isUpper then c.toLower else c
    d :: canonicalBytes (d == '-') cs

/-- Go `textproto.CanonicalMIMEHeaderKey`: a key made of token characters is
put in canonical letter case, any other key is returned unchanged. -/
def CanonicalMIMEHeaderKey (s : String) : String :=
  if s.data.all validHeaderFieldByte then String.mk (canonicalBytes true s.data) else s

/-- Go `http.Header`, a `map[string][]string`, as an association list. -/
abbrev Header := List (String × List String)

/-- Go `Header.Get`: the first value under the canonical form of `key`, `""`
when the key is absent or has no value. -/
def Header.Get (h : Header) (key : String) : String :=
  match h.lookup (CanonicalMIMEHeaderKey key) with
  | some (v :: _) => v
  | _ => ""

/-- Go `Header.Del`: the map without the canonical form of `key`. -/
def Header.Del (h : Header) (key : String) : Header :=
  h.filter (fun kv => kv.1 != CanonicalMIMEHeaderKey key)

/-- Go `Header.Set`: the canonical form of `key` now holds the single value. -/
def Header.Set (h : Header) (key value : String) : Header :=
  (CanonicalMIMEHeaderKey key, [value]) :: h.Del key

/-- The keys of the map. -/
def Header.keys (h : Header) : List String := h.map Prod.fst

/-! ## `ProxyHttp.go`: header stripping -/

namespace ProxyHttp

/-- The `removeHeaders` slice of `ProxyHttp.RemoveHeader` (`Connection` is
listed twice in the source). -/
def removeHeaders : List String :=
  ["Keep-Alive", "Transfer-Encoding", "TE", "Connection", "Trailer", "Upgrade",
   "Proxy-Authorization", "Proxy-Authenticate", "Connection", "Accept-Encoding"]

/-- The body of the loop of `ProxyHttp.RemoveHeader` for one entry `value` of
`removeHeaders`: when the header has a non-empty first value, the entries
named by `strings.Split(value, ",")` are deleted if `value` is `Connection`
(the source splits the name `value`, not the header value `v`), then `value`
itself is deleted. -/
def removeHeaderStep (header : Header) (value : String) : Header :=
  if (header.Get value).length > 0 then
    let header :=
      if EqualFold value "Connection" then
        (Split value ",").foldl
          (fun hd customerHeader => hd.Del (Trim customerHeader " ")) header
      else header
    header.Del value
  else header

/-- The source's `ProxyHttp.RemoveHeader`. -/
def RemoveHeader (header : Header) : Header :=
  removeHeaders.foldl removeHeaderStep header

/-! ## `ProxyHttp.go`: requests, responses, transport and the MITM exchange -/

/-- The fields of Go `url.URL` that the source reads or writes. -/
structure URL where
  Scheme : String
  Host : String
  Path : String
  RawQuery : String
deriving DecidableEq, Repr

/-- The fields of Go `http.Request` that the source reads or writes; `Body` is
what is left to read from the body reader. -/
structure Request where
  Method : String
  URL : URL
  Host : String
  Header : Header
  Body : List Nat
  ContentLength : Int
deriving DecidableEq, Repr

/-- The fields of Go `http.Response` that the source reads or writes; `Body` is
what is left to read from the body reader. -/
structure Response where
  StatusCode : Nat
  Header : Header
  Body : List Nat
deriving DecidableEq, Repr

/-- The source's `ProxyHttp.Transport`, with `transport.RoundTrip` as the
argument `roundTrip` (`none` is a non-nil error).  The headers of the request
are stripped in place before the round trip and those of the response before
it is returned; the result is the request as forwarded and the response. -/
def Transport (roundTrip : Request → Option Response) (request : Request) :
    Request × Option Response :=
  let request := { request with Header := RemoveHeader request.Header }
  match roundTrip request with
  | none => (request, none)
  | some response => (request, some { response with Header := RemoveHeader response.Header })

/-- The two HTTP hooks of the server.  A hook receives the message and the
request or response; its effect is given by the messages it passes to the
`resolve` closure, in call order (the empty list when it never calls it). -/
structure HttpHooks where
  OnHttpRequestEvent : List Nat → Request → List (List Nat)
  OnHttpResponseEvent : List Nat → Response → List (List Nat)

/-- The closure `resolveRequest`: `request.Body` becomes a reader of `message`. -/
def resolveRequest (request : Request) (message : List Nat) : Request :=
  { request with Body := message }

/-- The closure `resolveResponse`: `response.Body` becomes a reader of `message`. -/
def resolveResponse (response : Response) (message : List Nat) : Response :=
  { response with Body := message }

/-- The source's `ProxyHttp.ReadRequestBody` (`io.ReadAll` of the body). -/
def ReadRequestBody (reader : List Nat) : List Nat := reader

/-- The source's `ProxyHttp.ReadResponseBody`.  `gunzip` stands for
`gzip.NewReader` followed by `io.ReadAll`: `none` when `gzip.NewReader` fails
(the source then returns an empty body), otherwise the bytes read. -/
def ReadResponseBody (gunzip : List Nat → Option (List Nat)) (response : Response) : List Nat :=
  if response.Header.Get "Content-Encoding" == "gzip" then
    match gunzip response.Body with
    | none => []
    | some body => body
  else response.Body

/-- The source's `ProxyHttp.SetRequest`. -/
def SetRequest (request : Request) : Request :=
  { request with
    Header := request.Header.Set "Connection" "false"
    URL := { request.URL with Host := request.Host, Scheme := "https" } }

/-- The source's `ProxyHttp.SslReceiveSend` from the point where the request
has been read from the TLS stream and is not a WebSocket upgrade
(`ProxyHttp.go` lines 260 to 284).  The result is the response handed to
`i.response.Write(i.conn)`, `none` when the transport fails and nothing is
written.  Reading a body drains its reader. -/
def SslReceiveSend (hooks : HttpHooks) (roundTrip : Request → Option Response)
    (gunzip : List Nat → Option (List Nat)) (request : Request) : Option Response :=
  let request := SetRequest request
  let body := ReadRequestBody request.Body
  let request := { request with Body := [] }
  let request := (hooks.OnHttpRequestEvent body request).foldl resolveRequest request
  match (Transport roundTrip request).2 with
  | none => none
  | some response =>
    let body := ReadResponseBody gunzip response
    let response := { response with Body := [] }
    let response := (hooks.OnHttpResponseEvent body response).foldl resolveResponse response
    let response :=
      { response with Header := response.Header.Set "Content-Length" (toString body.length) }
    some { response with Body := body }

end ProxyHttp

/-! ## `ProxyServer.go`: the dispatcher -/

def MethodGet : Nat := 0x47
def MethodConnect : Nat := 0x43
def MethodPost : Nat := 0x50
def MethodPut : Nat := 0x50
def MethodDelete : Nat := 0x44
def MethodOptions : Nat := 0x4F
def MethodHead : Nat := 0x48
def SocksFive : Nat := 0x5

/-- The three implementations of `Contract.IServerProcesser` that `handle`
chooses from: `ProxyHttp`, `ProxySocks5` and `ProxyTcp`. -/
inductive Interceptor
  | ProxyHttp
  | ProxySocks5
  | ProxyTcp
deriving DecidableEq, Repr

/-- Go `bufio.Reader.Peek(n)` on a reader that still has the bytes `reader` to
deliver: the first `n` bytes, none of them consumed; an error when the stream
ends before `n` bytes. -/
def Peek (n : Nat) (reader : List Nat) : Option (List Nat) :=
  if n ≤ reader.length then some (reader.take n) else none

/-- The `switch peek[0]` of `ProxyServer.handle`. -/
def selectProcess (first : Nat) : Interceptor :=
  if first = MethodGet ∨ first = MethodPost ∨ first = MethodDelete ∨ first = MethodOptions ∨
      first = MethodHead ∨ first = MethodConnect then Interceptor.ProxyHttp
  else if first = SocksFive then Interceptor.ProxySocks5
  else Interceptor.ProxyTcp

/-- The choice made by `ProxyServer.handle`: `none` when `reader.Peek(3)`
fails, otherwise the interceptor selected by `peek[0]` together with the
reader it is built on (the `ConnPeer` holds the same `bufio.Reader`). -/
def dispatch (reader : List Nat) : Option (Interceptor × List Nat) :=
  match Peek 3 reader with
  | none => none
  | some peek => some (selectProcess (peek.headD 0), reader)

/-- The hooks of the embedder. -/
inductive HookName
  | tcpConnect
  | tcpClose
  | httpRequest
  | httpResponse
  | wsRequest
  | wsResponse
  | socks5Request
  | socks5Response
  | tcpServerStream
  | tcpClientStream
deriving DecidableEq, Repr

/-- What is observed on one accepted connection: a hook fired, or an operation
on the accepted socket (`read` and `write` stand for one or more reads or
writes, whether they succeed or not; `close` is a `Close` that reaches the
accepted socket). -/
inductive Event
  | hook (name : HookName)
  | read
  | write
  | close
deriving DecidableEq, Repr

/-- The event is one of the two hooks that `handle` fires itself. -/
def Event.lifecycle : Event → Bool
  | Event.hook HookName.tcpConnect => true
  | Event.hook HookName.tcpClose => true
  | _ => false

/-- The fields of `ProxyServer` that `handle` tests: whether the two
lifecycle hooks are registered (non-nil). -/
structure ProxyServer where
  OnTcpConnectEvent : Bool
  OnTcpCloseEvent : Bool
deriving DecidableEq, Repr

/-- The source's `ProxyServer.handle` as the events of the goroutine that
runs it, in order.  `Handle p reader` is what happens up to the return of
`process.Handle()` when `process` is the interceptor `p` built on `reader`;
`conn` is what the client sends.  The deferred function runs last on both
exits.  What goroutines started by the interceptor do after its return is
not part of this list. -/
def ProxyServer.handle (i : ProxyServer) (Handle : Interceptor → List Nat → List Event)
    (conn : List Nat) : List Event :=
  let deferred :=
    (if i.OnTcpCloseEvent then [Event.hook HookName.tcpClose] else []) ++ [Event.close]
  let connect := if i.OnTcpConnectEvent then [Event.hook HookName.tcpConnect] else []
  match dispatch conn with
  | none => connect ++ [Event.read] ++ deferred
  | some (process, reader) => connect ++ [Event.read] ++ Handle process reader ++ deferred

/-! ## The events of one connection, relay goroutines included -/

/-- What a relay goroutine (a SOCKS5 pump, a direction of the TCP pipe, a
WebSocket relay task) does on the accepted connection: it fires the hook of
the client-to-target direction or the hook of the target-to-client direction,
reads the accepted socket or writes it. -/
inductive RelayEvent
  | request
  | response
  | read
  | write
deriving DecidableEq, Repr

/-- The event of a relay goroutine whose two hooks are `request` and
`response`. -/
def RelayEvent.event (request response : HookName) : RelayEvent → Event
  | RelayEvent.request => Event.hook request
  | RelayEvent.response => Event.hook response
  | RelayEvent.read => Event.read
  | RelayEvent.write => Event.write

/-- What an interceptor leaves behind when its `Handle` returns: the events up
to the return, and the events of the goroutines it started that are still
running then, in their order. -/
structure Outcome where
  returned : List Event
  later : List Event
deriving DecidableEq, Repr

/-- Events before an outcome. -/
def Outcome.after (events : List Event) (o : Outcome) : Outcome :=
  ⟨events ++ o.returned, o.later⟩

namespace ProxyHttp

/-- How `sslConn.Handshake()` ends: without error, with `io.EOF` or an error
whose text contains `closed`, or with another error. -/
inductive HandshakeResult
  | ok
  | closed
  | failed
deriving DecidableEq, Repr

/-- What a WebSocket relay task does: an event of a relay goroutine, or the
deferred `Close` of the client endpoint. -/
inductive WsEvent
  | relay (e : RelayEvent)
  | close
deriving DecidableEq, Repr

/-- The event of a WebSocket relay task; its hooks are `OnWsRequestEvent` and
`OnWsResponseEvent`. -/
def WsEvent.event : WsEvent → Event
  | WsEvent.relay e => e.event HookName.wsRequest HookName.wsResponse
  | WsEvent.close => Event.close

/-- What the network and the peers do during one run of `ProxyHttp.Handle`,
one field per call whose result the source branches on. -/
structure HttpRun where
  /-- `http.ReadRequest(i.reader)` in `Handle` (`none`: an error). -/
  request : Option Request
  /-- The dial of `handleSslRequest` succeeds. -/
  probe : Bool
  /-- `i.conn.Write([]byte(ConnectSuccess))` succeeds. -/
  connectSent : Bool
  /-- `Cache.GetCertificate` returns a `tls.Certificate`. -/
  certificate : Bool
  /-- The TLS handshake with the client. -/
  handshake : HandshakeResult
  /-- A handshake that fails has sent an alert to the client (`crypto/tls`
  sends none when the first record is not a TLS record). -/
  alert : Bool
  /-- The request `handleWsShakehandErr` builds from the raw input (`none`:
  `url.Parse` fails and it returns). -/
  wsRequest : Option Request
  /-- `http.ReadRequest(i.reader)` on the TLS stream. -/
  tlsRequest : Option Request
  /-- `Transport` returns a response. -/
  response : Bool
  /-- `i.upgrade.Upgrade` succeeds. -/
  upgrade : Bool
  /-- `dialer.Dial` to the upstream WebSocket server succeeds. -/
  wsDial : Bool
  /-- What the two relay tasks do before the controller, having read the
  first error from `stop`, runs its deferred `clientWsConn.Close()`. -/
  relay : List WsEvent
  /-- What the relay tasks do after that: `handleWsRequest` does not wait for
  them. -/
  straggler : List WsEvent
deriving DecidableEq, Repr

namespace Events

/-- Modelled from the spec: `Websocket.Upgrader.Upgrade` and `Websocket.Conn.Close`
(`Core/Websocket` is not among the sources).  The upgrade answers the
handshake on the client socket, and the client endpoint it returns is built on
`i.conn`; section 4.3.1 has the controller return, "after which the deferred
close of both endpoints proceeds", so the deferred `clientWsConn.Close()` is a
`close` of the accepted socket.  The rest is the source's
`ProxyHttp.handleWsRequest`: the controller returns at the first error it
reads from `stop`, and the relay tasks are not waited for. -/
def handleWsRequest (run : HttpRun) (request : Request) : Outcome :=
  if request.Header.Get "Upgrade" == "" then ⟨[], []⟩
  else if !run.upgrade then ⟨[], []⟩
  else if !run.wsDial then ⟨[Event.write] ++ [Event.close], []⟩
  else
    ⟨[Event.write] ++ run.relay.map WsEvent.event ++ [Event.close],
      run.straggler.map WsEvent.event⟩

/-- The events of the source's `ProxyHttp.handleRequest`: the download of the
root certificate, or request hook, transport, response hook and the write of
the response (`request.URL` is not nil after `http.ReadRequest`). -/
def handleRequest (run : HttpRun) (request : Request) : Outcome :=
  if request.Host == "shermie-proxy.io" && request.URL.Path == "/tls" then ⟨[Event.write], []⟩
  else
    ⟨[Event.hook HookName.httpRequest] ++
      (if run.response then [Event.hook HookName.httpResponse, Event.write] else []), []⟩

/-- The events of the source's `ProxyHttp.SslReceiveSend`.  A handshake that
fails has read the socket, and written it if it sent an alert; one that
succeeds has read and written it. -/
def SslReceiveSend (run : HttpRun) : Outcome :=
  if !run.certificate then ⟨[], []⟩
  else
    match run.handshake with
    | HandshakeResult.closed =>
      ⟨[Event.read] ++ (if run.alert then [Event.write] else []), []⟩
    | HandshakeResult.failed =>
      Outcome.after ([Event.read] ++ (if run.alert then [Event.write] else []))
        (match run.wsRequest with
         | none => ⟨[], []⟩
         | some wsRequest => handleWsRequest run wsRequest)
    | HandshakeResult.ok =>
      Outcome.after ([Event.read, Event.write] ++ [Event.read])
        (match run.tlsRequest with
         | none => ⟨[], []⟩
         | some request =>
           if request.Header.Get "Connection" == "Upgrade" then handleWsRequest run request
           else
             ⟨[Event.hook HookName.httpRequest] ++
               (if run.response then [Event.hook HookName.httpResponse, Event.write] else []),
               []⟩)

/-- The events of the source's `ProxyHttp.handleSslRequest`: the reachability
probe, the `502` or `200` answer to the `CONNECT`, then the MITM. -/
def handleSslRequest (run : HttpRun) : Outcome :=
  if !run.probe then ⟨[Event.write], []⟩
  else if !run.connectSent then ⟨[Event.write], []⟩
  else (SslReceiveSend run).after [Event.write]

/-- The events of the source's `ProxyHttp.Handle`. -/
def Handle (run : HttpRun) : Outcome :=
  Outcome.after [Event.read]
    (match run.request with
     | none => ⟨[], []⟩
     | some request =>
       if request.Method == "CONNECT" then handleSslRequest run
       else handleRequest run request)

end Events

end ProxyHttp

namespace ProxySocks5

/-- What the network and the peers do during one run of `ProxySocks5.Handle`,
one field per stage at which the source may return. -/
structure Socks5Run where
  /-- The greeting is read and answered (lines 55 to 94). -/
  greeting : Bool
  /-- The request is read up to its port bytes (lines 95 to 177). -/
  request : Bool
  /-- The dial of the target succeeds. -/
  dial : Bool
  /-- The flush of the reply succeeds (line 228). -/
  flush : Bool
  /-- The command is `CONNECT`, so that the two pumps are started. -/
  connect : Bool
  /-- What the two pumps do before `Handle`, having received the first error
  from `out`, returns. -/
  relay : List RelayEvent
  /-- What the pump that is still running does after that: `Handle` does not
  wait for it. -/
  straggler : List RelayEvent
deriving DecidableEq, Repr

namespace Events

/-- The events of the source's `ProxySocks5.Handle`.  With a command other
than `CONNECT` no pump is started and `err = <-out` (line 238) never
returns: `none`.  With `CONNECT`, `Handle` returns at the first error a pump
sends on `out`; the other pump is not waited for. -/
def Handle (run : Socks5Run) : Option Outcome :=
  if !run.greeting then some ⟨[Event.read], []⟩
  else if !run.request then some ⟨[Event.read, Event.write, Event.read], []⟩
  else if !run.dial then some ⟨[Event.read, Event.write, Event.read, Event.write], []⟩
  else if !run.flush then some ⟨[Event.read, Event.write, Event.read, Event.write], []⟩
  else if !run.connect then none
  else
    some ⟨[Event.read, Event.write, Event.read, Event.write] ++
        run.relay.map (RelayEvent.event HookName.socks5Request HookName.socks5Response),
      run.straggler.map (RelayEvent.event HookName.socks5Request HookName.socks5Response)⟩

end Events

end ProxySocks5

/-- Modelled from the spec: `ProxyTcp`, which is not among the sources.
Section 9 has it "a plain bidirectional pipe with optional
`on_tcp_client_stream`/`on_tcp_server_stream` hooks": what its two directions
do until `Handle` returns, and what a direction still running does after
that. -/
structure TcpRun where
  relay : List RelayEvent
  straggler : List RelayEvent
deriving DecidableEq, Repr

/-- The events of a run of `ProxyTcp.Handle`. -/
def TcpRun.outcome (run : TcpRun) : Outcome :=
  ⟨run.relay.map (RelayEvent.event HookName.tcpClientStream HookName.tcpServerStream),
    run.straggler.map (RelayEvent.event HookName.tcpClientStream HookName.tcpServerStream)⟩

/-- What happens around one accepted connection: the run of each interceptor,
should it be the one chosen, and how the goroutines that outlive the
interceptor are scheduled against the deferred function of `handle`: `early`
of their events come before the close hook, `between` of them between the
close hook and the close of the socket, the others after the close. -/
structure World where
  http : ProxyHttp.HttpRun
  socks5 : ProxySocks5.Socks5Run
  tcp : TcpRun
  early : Nat
  between : Nat
deriving DecidableEq, Repr

/-- The outcome of `process.Handle()` for the interceptor chosen; `none` when
it never returns. -/
def World.outcome (w : World) : Interceptor → Option Outcome
  | Interceptor.ProxyHttp => some (ProxyHttp.Events.Handle w.http)
  | Interceptor.ProxySocks5 => ProxySocks5.Events.Handle w.socks5
  | Interceptor.ProxyTcp => some w.tcp.outcome

/-- The events of one accepted connection, in order, when `handle` exits
(`none` when it does not): those of `handle` itself, with the events of the
goroutines that outlive the interceptor placed among the two steps of its
deferred function as the world schedules them. -/
def connection (i : ProxyServer) (w : World) (conn : List Nat) : Option (List Event) :=
  let connect := if i.OnTcpConnectEvent then [Event.hook HookName.tcpConnect] else []
  let closeHook := if i.OnTcpCloseEvent then [Event.hook HookName.tcpClose] else []
  match dispatch conn with
  | none => some (connect ++ [Event.read] ++ closeHook ++ [Event.close])
  | some (process, _) =>
    match w.outcome process with
    | none => none
    | some o =>
      some (connect ++ [Event.read] ++ o.returned ++ o.later.take w.early ++ closeHook ++
        (o.later.drop w.early).take w.between ++ [Event.close] ++
        o.later.drop (w.early + w.between))

/-! ## `ProxySocks5.go`: negotiation -/

namespace ProxySocks5

def Rsv : Nat := 0x00
def CommandConn : Nat := 0x01
def CommandBind : Nat := 0x02
def CommandUdp : Nat := 0x03
def TargetIpv4 : Nat := 0x01
def TargetIpv6 : Nat := 0x04
def TargetDomain : Nat := 0x03
def Version : Nat := 0x5

/-- Go `bufio.Reader.ReadByte` on a reader that holds in its buffer all the
bytes `reader` it has still to deliver: `none` is the error at the end of the
stream.  (`Segmented.ReadByte` is the reader whose bytes arrive in segments.) -/
def ReadByte : List Nat → Option (Nat × List Nat)
  | [] => none
  | b :: reader => some (b, reader)

/-- Go `bufio.Reader.Read` into a buffer of `n` bytes, on a reader that holds
in its buffer all the bytes it has still to deliver: the bytes read (at most
`n`, fewer when the stream holds fewer) and the reader after them; `none` is
the error at the end of the stream.  (`Segmented.Read` is the reader whose
bytes arrive in segments, where a read may return fewer.) -/
def Read (n : Nat) (reader : List Nat) : Option (List Nat × List Nat) :=
  if reader = [] then none else some (reader.take n, reader.drop n)

/-- What the network answers during the negotiation. -/
structure Network where
  /-- Go `net.IP(buffer).String()`. -/
  IPString : List Nat → String
  /-- Go `net.ResolveIPAddr("ip", name)`: `addr.String()`, `none` on error. -/
  ResolveIPAddr : String → Option String
  /-- The dial of the target (network, address, whether through TLS): the host
  of `i.target.RemoteAddr()`, as `net.SplitHostPort` returns it, `none` on error. -/
  Dial : String → String → Bool → Option String
  /-- Go `net.ParseIP`: the 16-byte form of the address, `none` for nil. -/
  ParseIP : String → Option (List Nat)

/-- Go `IP.To4`. -/
def To4 (ip : List Nat) : Option (List Nat) :=
  if ip.length = 4 then some ip
  else if ip.length = 16 ∧ (ip.take 10).all (fun b => b == 0) ∧ (ip.drop 10).take 2 = [0xff, 0xff]
  then some (ip.drop 12)
  else none

/-- Go `IP.To16`. -/
def To16 (ip : List Nat) : Option (List Nat) :=
  if ip.length = 4 then some ([0, 0, 0, 0, 0, 0, 0, 0, 0, 0, 0xff, 0xff] ++ ip)
  else if ip.length = 16 then some ip
  else none

/-- The source's `ProxySocks5.IpV4`. -/
def IpV4 (net : Network) (ipAddr : String) : Bool :=
  (net.ParseIP ipAddr).isSome && Contains ipAddr "."

/-- The source's `ProxySocks5.IpV6`. -/
def IpV6 (net : Network) (ipAddr : String) : Bool :=
  (net.ParseIP ipAddr).isSome && Contains ipAddr ":"

/-- The source's `ProxySocks5.ByteToInt`. -/
def ByteToInt (input : List Nat) : Nat :=
  ((input.getD 0 0 &&& 0xFF) <<< 8) ||| (input.getD 1 0 &&& 0xFF)

/-- The bound address written by `ProxySocks5.Handle` (lines 211 to 225) for
the remote host `host` of the target; `hostname` is the variable of that name,
which at this point holds the dialled address. A nil `To4` or `To16` writes
no byte. -/
def boundAddress (net : Network) (host hostname : String) : List Nat :=
  (if IpV4 net host then [TargetIpv4] ++ ((net.ParseIP host).bind To4).getD [] else []) ++
  (if IpV6 net host then [TargetIpv6] ++ ((net.ParseIP host).bind To16).getD [] else []) ++
  (if !IpV4 net host && !IpV6 net host then
    [TargetDomain, hostname.length % 256] ++ stringBytes hostname else [])

/-- What a run of `ProxySocks5.Handle` leaves behind. -/
structure Socks5Result where
  /-- The batches of bytes flushed to the client, in order. -/
  flushed : List (List Nat)
  /-- The dial attempted: network, address, whether through TLS. -/
  dial : Option (String × String × Bool)
  /-- The remote host of the target when the dial succeeded. -/
  target : Option String
  /-- Both pumps are started. -/
  relay : Bool
deriving DecidableEq, Repr

/-- A run that returns without writing. -/
def Socks5Result.stop : Socks5Result := ⟨[], none, none, false⟩

/-- The `switch targetType` of `ProxySocks5.Handle`: the host name and the
reader after the address, `none` when the source returns. -/
def readAddress (net : Network) (targetType : Nat) (reader : List Nat) :
    Option (String × List Nat) :=
  if targetType = TargetIpv4 then
    match Read 4 reader with
    | none => none
    | some (buffer, reader) =>
      if buffer.length ≠ 4 then none else some (net.IPString buffer, reader)
  else if targetType = TargetIpv6 then
    match Read 16 reader with
    | none => none
    | some (buffer, reader) =>
      if buffer.length ≠ 16 then none else some (net.IPString buffer, reader)
  else if targetType = TargetDomain then
    match ReadByte reader with
    | none => none
    | some (domainLen, reader) =>
      if domainLen ≤ 0 then none
      else
        match Read domainLen reader with
        | none => none
        | some (buffer, reader) =>
          if buffer.length ≠ domainLen then none
          else
            some ((net.ResolveIPAddr (bytesString buffer)).getD (bytesString buffer), reader)
  else some ("", reader)

/-- The dial chosen by `ProxySocks5.Handle` (lines 182 to 195): network,
address, and whether the connection is made through TLS. -/
def dialTarget (command : Nat) (port hostname : String) : String × String × Bool :=
  if command = CommandUdp then ("udp", hostname, false)
  else if port = "443" then ("tcp", hostname, true)
  else ("tcp", hostname, false)

/-- The reply of `ProxySocks5.Handle` (lines 180 to 237) once the address and
the port bytes `buffer` have been read: `VER`, then either `REP` 1, a flush and
a return when the dial fails, or `REP` 0, `RSV`, the bound address, the port
bytes and a flush.  Writes to the client are taken to succeed: the bytes
handed to the buffered writer reach the client at the `Flush`. -/
def reply (net : Network) (command : Nat) (port hostname : String) (buffer : List Nat) :
    Socks5Result :=
  match net.Dial (dialTarget command port hostname).1 (dialTarget command port hostname).2.1
      (dialTarget command port hostname).2.2 with
  | none => ⟨[[Version, 0x01]], some (dialTarget command port hostname), none, false⟩
  | some host =>
    ⟨[[Version, 0x00, Rsv] ++ boundAddress net host hostname ++ buffer],
      some (dialTarget command port hostname), some host, command == 0x01⟩

/-- The request phase of `ProxySocks5.Handle` (lines 95 to 237), on a reader
that still has the bytes `reader` to deliver.  A failed `ReadByte` of the
version leaves `version` zero.  The two port bytes are read into a zeroed
buffer without a test of the length read. -/
def request (net : Network) (reader : List Nat) : Socks5Result :=
  match ReadByte reader with
  | none => Socks5Result.stop
  | some (version, reader) =>
    if version ≠ Version then Socks5Result.stop
    else
      match ReadByte reader with
      | none => Socks5Result.stop
      | some (command, reader) =>
        if command ≠ CommandConn ∧ command ≠ CommandBind ∧ command ≠ CommandUdp then
          Socks5Result.stop
        else
          match ReadByte reader with
          | none => Socks5Result.stop
          | some (rsv, reader) =>
            if rsv ≠ Rsv then Socks5Result.stop
            else
              match ReadByte reader with
              | none => Socks5Result.stop
              | some (targetType, reader) =>
                if targetType ≠ TargetIpv4 ∧ targetType ≠ TargetIpv6 ∧
                    targetType ≠ TargetDomain then Socks5Result.stop
                else
                  match readAddress net targetType reader with
                  | none => Socks5Result.stop
                  | some (hostname, reader) =>
                    match Read 2 reader with
                    | none => Socks5Result.stop
                    | some (bytes, _) =>
                      let buffer := bytes ++ List.replicate (2 - bytes.length) 0
                      let port := toString (ByteToInt buffer)
                      let hostname := hostname ++ ":" ++ port
                      reply net command port hostname buffer

/-- The loop of `ProxySocks5.Handle` that reads the `methodNum` offered
methods and drops them. -/
def readMethods : Nat → List Nat → Option (List Nat)
  | 0, reader => some reader
  | n + 1, reader =>
    match ReadByte reader with
    | none => none
    | some (_, reader) => readMethods n reader

/-- The source's `ProxySocks5.Handle` up to the start of the pumps: the
greeting (lines 55 to 94), then the request phase.  The test
`methodNum < 0` of the source cannot hold of a byte. -/
def Handle (net : Network) (reader : List Nat) : Socks5Result :=
  match ReadByte reader with
  | none => Socks5Result.stop
  | some (version, reader) =>
    if version ≠ Version then Socks5Result.stop
    else
      match ReadByte reader with
      | none => Socks5Result.stop
      | some (methodNum, reader) =>
        if methodNum > 0xFF then Socks5Result.stop
        else
          let requiredAuth := false
          match readMethods methodNum reader with
          | none => Socks5Result.stop
          | some reader =>
            if requiredAuth then ⟨[[Version, 0x00]], none, none, false⟩
            else
              let r := request net reader
              { r with flushed := [Version, 0x00] :: r.flushed }

/-! ## `ProxySocks5.go`: the pumps -/

/-- The errors a pump sends on `out`: `write1` and `write2` are the two
"write to the target server" errors (suffixes `-1` and `-2` in the source),
`read1` is the "read client data" error. -/
inductive PumpError
  | write1
  | write2
  | read1
deriving DecidableEq, Repr

/-- What one pass of the loop of `Transport` meets: the number of bytes the
origin has ready (`originConn.Read(buff)` returns at most `len(buff)` of them),
whether that read returns a non-nil error, and the length and error that the
hook, or the default `resolve`, returns for the chunk. -/
structure Pass where
  avail : Nat
  readErr : Bool
  writeLen : Int
  writeErr : Bool
deriving DecidableEq, Repr

/-- The outcome of one pass: the length read, the error sent on `out` (the
loop is left exactly when one is sent), and `len(buff)` after the pass. -/
structure PassResult where
  readLen : Nat
  sent : Option PumpError
  buff : Nat
deriving DecidableEq, Repr

/-- One pass of the `for` loop of `ProxySocks5.Transport` (lines 250 to 282),
entered with a buffer of length `buff`.  `buff = buff[0:readLen]` shortens the
buffer, `buff = buff[:]` leaves its length as it is. -/
def pass (buff : Nat) (p : Pass) : PassResult :=
  let readLen := min p.avail buff
  let err := p.readErr
  if readLen > 0 then
    let buff := readLen
    let writeLen := p.writeLen
    let err := p.writeErr
    let outOfRange : Bool := writeLen < 0 || (readLen : Int) < writeLen
    let writeLen := if outOfRange then 0 else writeLen
    if outOfRange && !err then ⟨readLen, some PumpError.write1, buff⟩
    else if (readLen : Int) ≠ writeLen then ⟨readLen, some PumpError.write2, buff⟩
    else if err then ⟨readLen, some PumpError.read1, buff⟩
    else ⟨readLen, none, buff⟩
  else if err then ⟨readLen, some PumpError.read1, buff⟩
  else ⟨readLen, none, buff⟩

/-- What a pump has done after a number of passes. -/
structure Pump where
  /-- The length of the buffer offered to each read, in order. -/
  offered : List Nat
  /-- The errors sent on `out`, in order. -/
  out : List PumpError
  /-- The loop has not been left. -/
  running : Bool
deriving DecidableEq, Repr

/-- The loop of `ProxySocks5.Transport` over the passes of `script`, entered
with a buffer of length `buff`. -/
def loop (buff : Nat) : List Pass → Pump
  | [] => ⟨[], [], true⟩
  | p :: script =>
    match (pass buff p).sent with
    | some e => ⟨[buff], [e], false⟩
    | none =>
      let rest := loop (pass buff p).buff script
      ⟨buff :: rest.offered, rest.out, rest.running⟩

/-- The source's `ProxySocks5.Transport`, run over the passes of `script`:
`buff := make([]byte, 10*1024)`, then the loop. -/
def Transport (script : List Pass) : Pump := loop (10 * 1024) script

end ProxySocks5

/-! ## Go library functions for the dialer and the handshake fallback -/

/-- Go `strings.LastIndex` on character lists: the index of the last
occurrence of `sub`, `none` when there is none. -/
def lastIndexGo (sub : List Char) : List Char → Option Nat
  | [] => if sub = [] then some 0 else none
  | c :: cs =>
    match lastIndexGo sub cs with
    | some i => some (i + 1)
    | none => if sub.isPrefixOf (c :: cs) then some 0 else none

/-- Go `strings.LastIndex`: `-1` when `sub` does not occur in `s`. -/
def LastIndex (s sub : String) : Int :=
  match lastIndexGo sub.data s.data with
  | some i => (i : Int)
  | none => -1

/-- The Go slice expression `s[i:]` on a string: `none` is the run-time panic
for an index below zero or above `len(s)`. -/
def sliceFrom (s : String) (i : Int) : Option String :=
  if 0 ≤ i ∧ i ≤ (s.length : Int) then some (String.mk (s.data.drop i.toNat)) else none

/-- The Go slice expression `s[:i]` on a string: `none` is the run-time panic
for an index below zero or above `len(s)`. -/
def sliceTo (s : String) (i : Int) : Option String :=
  if 0 ≤ i ∧ i ≤ (s.length : Int) then some (String.mk (s.data.take i.toNat)) else none

/-- The value of a Go `int` (64 bits) after an arithmetic operation that may
overflow. -/
def wrapInt (x : Int) : Int := (x + 2 ^ 63) % 2 ^ 64 - 2 ^ 63

/-- The value Go `strconv.Atoi` returns, its error dropped: an optional sign
and decimal digits; `0` on a syntax error, the nearest bound of `int` on a
range error. -/
def Atoi (s : String) : Int :=
  let signed : Bool × List Char :=
    match s.data with
    | '-' :: digits => (true, digits)
    | '+' :: digits => (false, digits)
    | digits => (false, digits)
  if signed.2 = [] ∨ ¬ signed.2.all Char.isDigit then 0
  else
    let n : Nat := signed.2.foldl (fun acc d => 10 * acc + (d.toNat - 48)) 0
    if signed.1 then (if n > 2 ^ 63 then -(2 ^ 63 : Int) else -(n : Int))
    else (if n ≥ 2 ^ 63 then (2 ^ 63 - 1 : Int) else (n : Int))

/-- Go `net.SplitHostPort`: host and port of `host:port` or `[host]:port`,
`none` for an error (no colon, a host with a colon of its own outside
brackets, a misplaced bracket). -/
def SplitHostPort (hostport : String) : Option (String × String) :=
  match lastIndexGo [':'] hostport.data with
  | none => none
  | some i =>
    let bracketed : Option (List Char × Nat × Nat) :=
      if hostport.data.head? = some '[' then
        let close := hostport.data.indexOf ']'
        if close = hostport.data.length then none
        else if close + 1 = i then some ((hostport.data.take close).drop 1, 1, close + 1)
        else none
      else if (hostport.data.take i).contains ':' then none
      else some (hostport.data.take i, 0, 0)
    match bracketed with
    | none => none
    | some (host, j, k) =>
      if (hostport.data.drop j).contains '[' then none
      else if (hostport.data.drop k).contains ']' then none
      else some (String.mk host, String.mk (hostport.data.drop (i + 1)))

/-- Go `net.JoinHostPort`: a host with a colon or a percent sign is put in
brackets. -/
def JoinHostPort (host port : String) : String :=
  if host.data.contains ':' || host.data.contains '%' then "[" ++ host ++ "]:" ++ port
  else host ++ ":" ++ port

/-- Go `net.ResolveTCPAddr("tcp", address)` followed by `String()`, for an
address whose host is the text of an IP address and whose port is a number: the
address is split by `net.SplitHostPort` and printed back; `none` for the error
of the split. -/
def resolveLiteral (address : String) : Option String :=
  match SplitHostPort address with
  | none => none
  | some (host, port) => some (JoinHostPort host port)

/-! ## `ProxyHttp.go`: the dialer and the handshake fallback -/

namespace ProxyHttp

/-- The loop of `ProxyHttp.DialContext` over `ipList` (the texts
`item.String()` of its entries): `ip` is assigned each entry in turn and the
loop is left at the first entry whose text contains no colon. -/
def selectIP : String → List String → String
  | ip, [] => ip
  | _, item :: ipList => if !Contains item ":" then item else selectIP item ipList

/-- The function built by the source's `ProxyHttp.DialContext`, up to the
address it dials: `Fetch` is `i.server.dns.Fetch` (its error is dropped by
the source, the list is then empty), `ResolveTCPAddr` is
`net.ResolveTCPAddr("tcp", _)` followed by `String()`, `none` for an error
(the nil `*TCPAddr` prints as `<nil>`).  The result is the address handed to
`net.DialTimeout`; `none` is the panic of a slice expression. -/
def DialContext (Fetch : String → List String) (ResolveTCPAddr : String → Option String)
    (addr : String) : Option String :=
  let separator := LastIndex addr ":"
  match sliceTo addr separator with
  | none => none
  | some host =>
    let ipList := Fetch host
    let ip := selectIP "" ipList
    match sliceFrom addr separator with
    | none => none
    | some port => some ((ResolveTCPAddr (ip ++ port)).getD "<nil>")

/-- How a run of `handleWsShakehandErr` ends before it calls
`handleWsRequest`: with a run-time panic (an index or a slice out of range),
with the return after a failed `url.Parse`, or with the request it has built. -/
inductive WsShakehand
  | panic
  | parseError
  | request (wsRequest : Request)
deriving DecidableEq, Repr

/-- The body of the loop of `ProxyHttp.handleWsShakehandErr` for one piece
`value` of the raw input (lines 313 to 338); a panic or a return ends the run.
`Parse` is `url.Parse`, `none` for an error.  `wsRequest.RequestURI`, which
nothing in the source reads, is left out. -/
def wsHeaderStep (Parse : String → Option URL) (rawInput : String) (wsMethodList : List String)
    (state : WsShakehand) (value : String) : WsShakehand :=
  match state with
  | WsShakehand.request wsRequest =>
    let headerKeValList := Split value ": "
    if headerKeValList.length ≤ 1 then WsShakehand.request wsRequest
    else
      let key := headerKeValList.getD 0 ""
      let val := headerKeValList.getD 1 ""
      let wsRequest := { wsRequest with Header := wsRequest.Header.Set key val }
      let afterHost : WsShakehand :=
        if key = "Host" then
          match wsMethodList[1]? with
          | none => WsShakehand.panic
          | some path =>
            match Parse ("http://" ++ val ++ path) with
            | none => WsShakehand.parseError
            | some url => WsShakehand.request { wsRequest with Host := val, URL := url }
        else WsShakehand.request wsRequest
      match afterHost with
      | WsShakehand.request wsRequest =>
        if key = "Content-Length" then
          let rawLen : Int := rawInput.length
          let bodyLen := Atoi val
          let headerLen := wrapInt (rawLen - bodyLen)
          match sliceFrom rawInput headerLen with
          | none => WsShakehand.panic
          | some body =>
            WsShakehand.request
              { wsRequest with Body := stringBytes body, ContentLength := bodyLen }
        else WsShakehand.request wsRequest
      | ended => ended
  | ended => ended

/-- The source's `ProxyHttp.handleWsShakehandErr` up to its call of
`handleWsRequest`: the request built from the raw input.  A nil `URL` and a nil
`Body` are the empty URL and the empty body. -/
def handleWsShakehandErr (Parse : String → Option URL) (rawProtolInput : List Nat) :
    WsShakehand :=
  let rawInput := bytesString rawProtolInput
  let rawInputList := Split rawInput "\r\n"
  let wsMethodList := Split (rawInputList.headD "") " "
  let wsRequest : Request :=
    { Method := wsMethodList.headD "", URL := ⟨"", "", "", ""⟩, Host := "", Header := [],
      Body := [], ContentLength := 0 }
  rawInputList.foldl (wsHeaderStep Parse rawInput wsMethodList) (WsShakehand.request wsRequest)

end ProxyHttp

/-! ## `ProxySocks5.go`: the request phase over a stream that arrives in segments -/

namespace ProxySocks5

/-- A `bufio.Reader` on the accepted socket: the bytes it holds unread in its
buffer, and the segments still to come, each of them what one read of the
socket returns.  (Segments are taken to fit the buffer of 4096 bytes.) -/
structure Reader where
  buffered : List Nat
  segments : List (List Nat)
deriving DecidableEq, Repr

/-- The bytes a reader will deliver, in order. -/
def Reader.stream (r : Reader) : List Nat := r.buffered ++ r.segments.flatten

namespace Segmented

/-- The first byte of the segments, for `ReadByte` on an empty buffer: the
buffer is filled from the socket, a read that returns nothing is tried again,
and the end of the stream is an error. -/
def nextByte : List (List Nat) → Option (Nat × Reader)
  | [] => none
  | [] :: segments => nextByte segments
  | (b :: segment) :: segments => some (b, ⟨segment, segments⟩)

/-- Go `bufio.Reader.ReadByte`: the next buffered byte; the buffer is filled
from the socket first when it is empty. -/
def ReadByte (r : Reader) : Option (Nat × Reader) :=
  match r.buffered with
  | b :: buffered => some (b, ⟨buffered, r.segments⟩)
  | [] => nextByte r.segments

/-- Go `bufio.Reader.Read` into a buffer of `n` bytes, `n` below the size of
the reader's buffer: when bytes are buffered, as many of them as fit, with no
read of the socket; on an empty buffer one read of the socket, then as many
of its bytes as fit.  The bytes read are returned with the reader after them;
`none` is the error at the end of the stream. -/
def Read (n : Nat) (r : Reader) : Option (List Nat × Reader) :=
  match r.buffered with
  | b :: buffered => some ((b :: buffered).take n, ⟨(b :: buffered).drop n, r.segments⟩)
  | [] =>
    match r.segments with
    | [] => none
    | segment :: segments => some (segment.take n, ⟨segment.drop n, segments⟩)

/-- The reader after `k` bytes have been read from it one by one. -/
def skip : Nat → Reader → Option Reader
  | 0, r => some r
  | k + 1, r =>
    match ReadByte r with
    | none => none
    | some (_, r) => skip k r

/-- Once `k` bytes have been read, a `Read` into a buffer of `n` bytes
returns `n` bytes: the `n` bytes after the first `k` are not cut by a short
read. -/
def wholeAfter (k n : Nat) (r : Reader) : Bool :=
  match skip k r with
  | none => false
  | some r =>
    match Read n r with
    | none => false
    | some (bytes, _) => bytes.length == n

/-- The `switch targetType` of `ProxySocks5.Handle` (lines 128 to 170): the
host name and the reader after the address, `none` when the source returns. -/
def readAddress (net : Network) (targetType : Nat) (r : Reader) : Option (String × Reader) :=
  if targetType = TargetIpv4 then
    match Read 4 r with
    | none => none
    | some (buffer, r) =>
      if buffer.length ≠ 4 then none else some (net.IPString buffer, r)
  else if targetType = TargetIpv6 then
    match Read 16 r with
    | none => none
    | some (buffer, r) =>
      if buffer.length ≠ 16 then none else some (net.IPString buffer, r)
  else if targetType = TargetDomain then
    match ReadByte r with
    | none => none
    | some (domainLen, r) =>
      if domainLen ≤ 0 then none
      else
        match Read domainLen r with
        | none => none
        | some (buffer, r) =>
          if buffer.length ≠ domainLen then none
          else some ((net.ResolveIPAddr (bytesString buffer)).getD (bytesString buffer), r)
  else some ("", r)

/-- The request phase of `ProxySocks5.Handle` (lines 95 to 237) on a reader
whose stream arrives in segments.  A failed `ReadByte` of the version leaves
`version` zero.  The two port bytes are read into a zeroed buffer of two
bytes, and the length read is not tested (line 173). -/
def request (net : Network) (r : Reader) : Socks5Result :=
  match ReadByte r with
  | none => Socks5Result.stop
  | some (version, r) =>
    if version ≠ Version then Socks5Result.stop
    else
      match ReadByte r with
      | none => Socks5Result.stop
      | some (command, r) =>
        if command ≠ CommandConn ∧ command ≠ CommandBind ∧ command ≠ CommandUdp then
          Socks5Result.stop
        else
          match ReadByte r with
          | none => Socks5Result.stop
          | some (rsv, r) =>
            if rsv ≠ Rsv then Socks5Result.stop
            else
              match ReadByte r with
              | none => Socks5Result.stop
              | some (targetType, r) =>
                if targetType ≠ TargetIpv4 ∧ targetType ≠ TargetIpv6 ∧
                    targetType ≠ TargetDomain then Socks5Result.stop
                else
                  match readAddress net targetType r with
                  | none => Socks5Result.stop
                  | some (hostname, r) =>
                    match Read 2 r with
                    | none => Socks5Result.stop
                    | some (bytes, _) =>
                      let buffer := bytes ++ List.replicate (2 - bytes.length) 0
                      let port := toString (ByteToInt buffer)
                      let hostname := hostname ++ ":" ++ port
                      reply net command port hostname buffer

end Segmented

end ProxySocks5

/-! ## Inputs used in the evaluations below -/

/-- A network in which every dial fails; addresses print as dotted decimals. -/
def deadNetwork : ProxySocks5.Network where
  IPString := fun buffer => ".".intercalate (buffer.map toString)
  ResolveIPAddr := fun _ => none
  Dial := fun _ _ _ => none
  ParseIP := fun _ => none

/-- A network in which the name is not resolved and the dial reaches a target
whose remote host is the zoned literal `fe80::1%eth0`, which `net.ParseIP`
rejects. -/
def zonedNetwork : ProxySocks5.Network where
  IPString := fun buffer => ".".intercalate (buffer.map toString)
  ResolveIPAddr := fun _ => none
  Dial := fun _ _ _ => some "fe80::1%eth0"
  ParseIP := fun _ => none

/-- A network in which every dial reaches `127.0.0.1`. -/
def loopbackNetwork : ProxySocks5.Network where
  IPString := fun buffer => ".".intercalate (buffer.map toString)
  ResolveIPAddr := fun _ => none
  Dial := fun _ _ _ => some "127.0.0.1"
  ParseIP := fun s =>
    if s = "127.0.0.1" then some [0, 0, 0, 0, 0, 0, 0, 0, 0, 0, 0xff, 0xff, 127, 0, 0, 1] else none

/-- The client's request `05 01 00 03 0e "[fe80::1%eth0]" 00 50`. -/
def zonedRequest : List Nat :=
  [5, 1, 0, 3, 14] ++ stringBytes "[fe80::1%eth0]" ++ [0, 80]

/-- A run of the HTTP interceptor on a `CONNECT` whose TLS handshake fails
because the client speaks plaintext WebSocket: the request recovered from the
raw input carries `Upgrade`, the upgrade succeeds, the upstream dial fails. -/
def plainWsRun : ProxyHttp.HttpRun where
  request := some ⟨"CONNECT", ⟨"", "echo.test:80", "", ""⟩, "echo.test:80", [], [], 0⟩
  probe := true
  connectSent := true
  certificate := true
  handshake := ProxyHttp.HandshakeResult.failed
  alert := false
  wsRequest := some ⟨"GET", ⟨"http", "echo.test", "/", ""⟩, "echo.test",
    [("Host", ["echo.test"]), ("Upgrade", ["websocket"]), ("Connection", ["Upgrade"])], [], 0⟩
  tlsRequest := none
  response := false
  upgrade := true
  wsDial := false
  relay := []
  straggler := []

/-- A SOCKS5 `CONNECT` that is relayed, with both SOCKS5 hooks registered.
The client pump reads a chunk from the client, passes it to the request hook,
which writes it to the target; its next read of the client fails and it sends
its error, on which `Handle` returns.  The target pump has read a chunk from
the target by then: it still fires the response hook, which writes the chunk
to the client (lines 250 to 255). -/
def relayedRun : ProxySocks5.Socks5Run where
  greeting := true
  request := true
  dial := true
  flush := true
  connect := true
  relay := [RelayEvent.read, RelayEvent.request, RelayEvent.read]
  straggler := [RelayEvent.response, RelayEvent.write]

/-- A world in which the goroutines that outlive the interceptor run only
after `handle` has closed the socket. -/
def lateWorld : World where
  http := plainWsRun
  socks5 := relayedRun
  tcp := ⟨[], []⟩
  early := 0
  between := 0

/-- A response hook that resolves with the single byte `x`. -/
def rewriteHooks : ProxyHttp.HttpHooks where
  OnHttpRequestEvent := fun body _ => [body]
  OnHttpResponseEvent := fun _ _ => [[120]]

/-- An upstream that answers `200` with the body `hello`. -/
def helloUpstream (_ : ProxyHttp.Request) : Option ProxyHttp.Response :=
  some ⟨200, [("Content-Type", ["text/plain"])], [104, 101, 108, 108, 111]⟩

/-- A `GET /` read from the TLS stream. -/
def getRequest : ProxyHttp.Request :=
  ⟨"GET", ⟨"", "", "/", ""⟩, "example.test", [("Host", ["example.test"])], [], 0⟩

/-- A stand-in for `url.Parse` on the addresses of the evaluations below, all
of the form `http://host/path`: the host runs up to the first slash, the
path is the rest. -/
def parseHttp (rawURL : String) : Option ProxyHttp.URL :=
  some ⟨"http", String.mk ((rawURL.data.drop 7).takeWhile (fun c => c != '/')),
    String.mk ((rawURL.data.drop 7).dropWhile (fun c => c != '/')), ""⟩

/-- A well-formed request with a body of four bytes, `a: b`. -/
def postWithBody : List Nat :=
  stringBytes "POST /chat HTTP/1.1\r\nHost: echo.test\r\nContent-Length: 4\r\n\r\na: b"


/-! ## Header stripping -/

namespace ProxyHttp

/-- A lookup in a map filtered by a condition on the key. -/
theorem lookup_filter_key (P : String → Bool) (h : Header) (a : String) :
    (h.filter (fun kv => P kv.1)).lookup a = if P a then h.lookup a else none := by
  induction h with
  | nil => simp
  | cons kv h ih =>
    obtain ⟨k, v⟩ := kv
    by_cases hk : a = k
    · subst hk
      by_cases hp : P a <;> simp [List.filter_cons, List.lookup_cons, hp, ih]
    · have hne : (a == k) = false := by simpa using hk
      by_cases hp : P k <;> simp [List.filter_cons, List.lookup_cons, hp, hne, ih]

/-- Deleting a key leaves the first value of every other key as it was. -/
theorem Get_Del_of_ne (h : Header) (k k2 : String)
    (hne : CanonicalMIMEHeaderKey k2 ≠ CanonicalMIMEHeaderKey k) :
    (h.Del k).Get k2 = h.Get k2 := by
  unfold Header.Get Header.Del
  rw [lookup_filter_key (fun key => key != CanonicalMIMEHeaderKey k)]
  simp [hne]

/-- Deleting a key twice is deleting it once. -/
theorem Del_Del (h : Header) (k : String) : (h.Del k).Del k = h.Del k := by
  unfold Header.Del
  rw [List.filter_filter]
  congr 1
  funext kv
  simp

/-- For each entry of `removeHeaders` the loop body deletes the entry's own
key, and nothing else, when its first value is non-empty. -/
theorem removeHeaderStep_eq (h : Header) (value : String) (hv : value ∈ removeHeaders) :
    removeHeaderStep h value = if (h.Get value).length > 0 then h.Del value else h := by
  have e1 : EqualFold "Connection" "Connection" = true := by decide
  have e2 : Split "Connection" "," = ["Connection"] := by decide
  have e3 : Trim "Connection" " " = "Connection" := by decide
  have f1 : EqualFold "Keep-Alive" "Connection" = false := by decide
  have f2 : EqualFold "Transfer-Encoding" "Connection" = false := by decide
  have f3 : EqualFold "TE" "Connection" = false := by decide
  have f4 : EqualFold "Trailer" "Connection" = false := by decide
  have f5 : EqualFold "Upgrade" "Connection" = false := by decide
  have f6 : EqualFold "Proxy-Authorization" "Connection" = false := by decide
  have f7 : EqualFold "Proxy-Authenticate" "Connection" = false := by decide
  have f8 : EqualFold "Accept-Encoding" "Connection" = false := by decide
  simp only [removeHeaders, List.mem_cons, List.mem_singleton, List.not_mem_nil, or_false] at hv
  rcases hv with rfl | rfl | rfl | rfl | rfl | rfl | rfl | rfl | rfl | rfl <;>
    simp [removeHeaderStep, e1, e2, e3, f1, f2, f3, f4, f5, f6, f7, f8, Del_Del]

/-- Two loop bodies that agree on the entries of the list give the same fold. -/
theorem foldl_congr_mem {f g : Header → String → Header} (ks : List String)
    (hfg : ∀ k ∈ ks, ∀ h, f h k = g h k) (h : Header) : ks.foldl f h = ks.foldl g h := by
  induction ks generalizing h with
  | nil => rfl
  | cons k ks ih =>
    simp only [List.foldl_cons]
    rw [hfg k (List.mem_cons_self k ks) h]
    exact ih (fun k2 hk2 => hfg k2 (List.mem_cons_of_mem k hk2)) _

/-- Deleting, in turn, each key of `ks` whose first value is non-empty keeps
exactly the entries whose key is not the canonical form of such a key. -/
theorem foldl_delete_eq_filter (ks : List String) (h : Header) :
    ks.foldl (fun h k => if (h.Get k).length > 0 then h.Del k else h) h =
      h.filter (fun kv => !(ks.any (fun k =>
        CanonicalMIMEHeaderKey k == kv.1 && decide ((h.Get k).length > 0)))) := by
  induction ks generalizing h with
  | nil => simp
  | cons k ks ih =>
    simp only [List.foldl_cons]
    rw [ih]
    by_cases hk : (h.Get k).length > 0
    · rw [if_pos hk]
      unfold Header.Del
      rw [List.filter_filter]
      apply List.filter_congr
      intro kv _
      by_cases hkv : kv.1 = CanonicalMIMEHeaderKey k
      · simp [hkv, hk]
      · have hkv2 : ¬ (CanonicalMIMEHeaderKey k = kv.1) := fun e => hkv e.symm
        have hany : (ks.any (fun k2 => CanonicalMIMEHeaderKey k2 == kv.1 &&
              decide ((Header.Get (List.filter (fun kv => kv.1 != CanonicalMIMEHeaderKey k) h) k2).length > 0))) =
            (ks.any (fun k2 => CanonicalMIMEHeaderKey k2 == kv.1 &&
              decide ((h.Get k2).length > 0))) := by
          apply congrArg (fun f => ks.any f)
          funext k2
          by_cases hk2 : CanonicalMIMEHeaderKey k2 = kv.1
          · have hne : CanonicalMIMEHeaderKey k2 ≠ CanonicalMIMEHeaderKey k := by
              rw [hk2]; exact hkv
            have := Get_Del_of_ne h k k2 hne
            unfold Header.Del at this
            rw [this]
          · have hb : (CanonicalMIMEHeaderKey k2 == kv.1) = false := beq_eq_false_iff_ne.mpr hk2
            rw [hb]
            simp
        have hb1 : (CanonicalMIMEHeaderKey k == kv.1) = false := beq_eq_false_iff_ne.mpr hkv2
        have hb2 : (kv.1 != CanonicalMIMEHeaderKey k) = true := by simpa using hkv
        simp only [List.any_cons, hany, hb1, hb2]
        simp
    · rw [if_neg hk]
      apply List.filter_congr
      intro kv _
      simp [hk]

/-- The source's `RemoveHeader` keeps exactly the entries whose key is not the
canonical form of a listed name with a non-empty first value. -/
theorem RemoveHeader_eq_filter (h : Header) :
    RemoveHeader h = h.filter (fun kv => !(removeHeaders.any (fun k =>
      CanonicalMIMEHeaderKey k == kv.1 && decide ((h.Get k).length > 0)))) := by
  unfold RemoveHeader
  rw [foldl_congr_mem removeHeaders (fun k hk h => removeHeaderStep_eq h k hk)]
  exact foldl_delete_eq_filter removeHeaders h

/-- A Go string has length zero exactly when it is the empty string. -/
theorem length_eq_zero_iff (s : String) : s.length = 0 ↔ s = "" := by
  cases s with
  | mk d =>
    constructor
    · intro h
      have hd : d = [] := List.length_eq_zero.mp h
      subst hd
      rfl
    · intro h
      rw [h]
      rfl

/-- The condition under which `RemoveHeader` keeps a key, at the canonical
form of a listed name: the first value of that name is empty. -/
theorem keep_canonical_iff (h : Header) (name : String) (hmem : name ∈ removeHeaders) :
    (!(removeHeaders.any (fun k => CanonicalMIMEHeaderKey k == CanonicalMIMEHeaderKey name &&
      decide ((h.Get k).length > 0)))) = true ↔ h.Get name = "" := by
  rw [Bool.not_eq_true', List.any_eq_false]
  constructor
  · intro hall
    have := hall name hmem
    simp only [beq_self_eq_true, Bool.true_and, decide_eq_true_eq] at this
    exact (length_eq_zero_iff _).mp (by omega)
  · intro hget k _
    by_cases hk : CanonicalMIMEHeaderKey k = CanonicalMIMEHeaderKey name
    · have hsame : h.Get k = h.Get name := by
        unfold Header.Get
        rw [hk]
      simp [hsame, hget]
    · have hb : (CanonicalMIMEHeaderKey k == CanonicalMIMEHeaderKey name) = false :=
        beq_eq_false_iff_ne.mpr hk
      simp [hb]

/-- C1 (as stated, refuted): a hop-by-hop header that the parser delivers
with an empty value, here `Upgrade`, is still a key of the map after
`RemoveHeader`. -/
theorem RemoveHeader_keeps_empty_valued :
    "Upgrade" ∈ (RemoveHeader [("Upgrade", [""]), ("Host", ["example.test"])]).keys := by
  decide

/-- C1 (amended): after `RemoveHeader`, each of the nine hop-by-hop names whose
first value in the map is non-empty is no longer a key (keys are canonical,
so `TE` is the key `Te`); a name whose first value is empty keeps its entry;
in both cases `Get` of the name returns the empty string afterwards.
`Transport` hands the round trip the request with its header stripped in this
way and returns the response with its header stripped in this way. -/
theorem RemoveHeader_strips_valued (h : Header) (name : String)
    (hname : name ∈ ["Keep-Alive", "Transfer-Encoding", "TE", "Connection", "Trailer",
      "Upgrade", "Proxy-Authorization", "Proxy-Authenticate", "Accept-Encoding"]) :
    (h.Get name ≠ "" → CanonicalMIMEHeaderKey name ∉ (RemoveHeader h).keys) ∧
    (h.Get name = "" →
      (RemoveHeader h).lookup (CanonicalMIMEHeaderKey name) =
        h.lookup (CanonicalMIMEHeaderKey name)) ∧
    (RemoveHeader h).Get name = "" ∧
    (∀ (roundTrip : Request → Option Response) (request : Request),
      (Transport roundTrip request).1 =
        { request with Header := RemoveHeader request.Header } ∧
      (Transport roundTrip request).2 =
        (roundTrip { request with Header := RemoveHeader request.Header }).map
          (fun response => { response with Header := RemoveHeader response.Header })) := by
  have hsub : ∀ n ∈ ["Keep-Alive", "Transfer-Encoding", "TE", "Connection", "Trailer",
      "Upgrade", "Proxy-Authorization", "Proxy-Authenticate", "Accept-Encoding"],
      n ∈ removeHeaders := by decide
  have hmem : name ∈ removeHeaders := hsub name hname
  have hkeep := keep_canonical_iff h name hmem
  refine ⟨?_, ?_, ?_, ?_⟩
  · intro hget hin
    rw [RemoveHeader_eq_filter] at hin
    unfold Header.keys at hin
    obtain ⟨kv, hkv, hfst⟩ := List.mem_map.mp hin
    have hp := (List.mem_filter.mp hkv).2
    rw [hfst] at hp
    exact hget (hkeep.mp hp)
  · intro hget
    rw [RemoveHeader_eq_filter]
    rw [lookup_filter_key (fun key => !(removeHeaders.any (fun k =>
      CanonicalMIMEHeaderKey k == key && decide ((h.Get k).length > 0))))]
    rw [if_pos (hkeep.mpr hget)]
  · unfold Header.Get
    rw [RemoveHeader_eq_filter]
    rw [lookup_filter_key (fun key => !(removeHeaders.any (fun k =>
      CanonicalMIMEHeaderKey k == key && decide ((h.Get k).length > 0))))]
    by_cases hp : (!(removeHeaders.any (fun k =>
        CanonicalMIMEHeaderKey k == CanonicalMIMEHeaderKey name &&
          decide ((h.Get k).length > 0)))) = true
    · rw [if_pos hp]
      exact hkeep.mp hp
    · rw [if_neg hp]
  · intro roundTrip request
    simp only [Transport]
    split <;> rename_i heq <;> simp [heq]

/-- C1 (amended), at a concrete map: `Upgrade: websocket` is removed. -/
theorem RemoveHeader_strips_valued_witness :
    CanonicalMIMEHeaderKey "Upgrade" ∉
      (RemoveHeader [("Upgrade", ["websocket"]), ("Host", ["example.test"])]).keys :=
  (RemoveHeader_strips_valued [("Upgrade", ["websocket"]), ("Host", ["example.test"])]
    "Upgrade" (by decide)).1 (by decide)

/-- C2 (the code at the failing input): the header named by the value of
`Connection` is still in the map after `RemoveHeader`; only `Connection`
itself has been deleted. -/
theorem RemoveHeader_keeps_listed_header :
    RemoveHeader [("Connection", ["X-Custom"]), ("X-Custom", ["1"]), ("Host", ["example.test"])] =
      [("X-Custom", ["1"]), ("Host", ["example.test"])] := by
  decide

/-- `Get` after `Set` of the same key returns the value set. -/
theorem Get_Set (h : Header) (key value : String) : (h.Set key value).Get key = value := by
  simp [Header.Get, Header.Set, List.lookup_cons]

/-- Whatever the hooks do with `resolve`, the response that `SslReceiveSend`
hands to `Write` carries the body read from the upstream response and a
`Content-Length` equal to its length. -/
theorem SslReceiveSend_body (hooks : HttpHooks) (roundTrip : Request → Option Response)
    (gunzip : List Nat → Option (List Nat)) (request : Request) (response : Response)
    (h : SslReceiveSend hooks roundTrip gunzip request = some response) :
    ∃ upstream, response.Body = ReadResponseBody gunzip upstream ∧
      response.Header.Get "Content-Length" =
        toString (ReadResponseBody gunzip upstream).length := by
  unfold SslReceiveSend at h
  simp only at h
  split at h
  · cases h
  · rename_i upstream _
    refine ⟨upstream, ?_, ?_⟩
    · cases h
      rfl
    · cases h
      exact Get_Set _ _ _

/-- C3 (the code at the failing input): the response hook resolves with the
single byte `x`, and the response handed to `Write` still carries the upstream
body `hello` and `Content-Length: 5`. -/
theorem SslReceiveSend_ignores_resolve :
    SslReceiveSend rewriteHooks helloUpstream (fun _ => none) getRequest =
      some ⟨200, [("Content-Length", ["5"]), ("Content-Type", ["text/plain"])],
        [104, 101, 108, 108, 111]⟩ := by
  decide

end ProxyHttp

/-! ## The dispatcher -/

/-- A peek of three bytes succeeds on a stream of at least three bytes and
returns its first three bytes. -/
theorem Peek_three (first : Nat) (rest : List Nat) (hpeek : 2 ≤ rest.length) :
    Peek 3 (first :: rest) = some ((first :: rest).take 3) := by
  unfold Peek
  rw [if_pos]
  simp only [List.length_cons]
  omega

/-- C4: on a connection that delivers at least three bytes, `handle` chooses
the interceptor from the first byte alone: `47`, `50`, `44`, `4F`, `48`, `43`
give `ProxyHttp`, `05` gives `ProxySocks5`, every other value gives `ProxyTcp`;
the interceptor is built on the reader with nothing consumed, and `handle` runs
its `Handle` on the stream from its first byte. -/
theorem dispatch_by_first_byte (first : Nat) (rest : List Nat) (hpeek : 2 ≤ rest.length) :
    ∃ p, dispatch (first :: rest) = some (p, first :: rest) ∧
      (p = Interceptor.ProxyHttp ↔ first ∈ [0x47, 0x50, 0x44, 0x4F, 0x48, 0x43]) ∧
      (p = Interceptor.ProxySocks5 ↔ first = 0x05) ∧
      (p = Interceptor.ProxyTcp ↔ first ∉ [0x47, 0x50, 0x44, 0x4F, 0x48, 0x43, 0x05]) ∧
      ∀ (i : ProxyServer) (Handle : Interceptor → List Nat → List Event),
        i.handle Handle (first :: rest) =
          (if i.OnTcpConnectEvent then [Event.hook HookName.tcpConnect] else []) ++
            [Event.read] ++ Handle p (first :: rest) ++
            ((if i.OnTcpCloseEvent then [Event.hook HookName.tcpClose] else []) ++
              [Event.close]) := by
  have hd : dispatch (first :: rest) = some (selectProcess first, first :: rest) := by
    unfold dispatch
    rw [Peek_three first rest hpeek]
    rfl
  refine ⟨selectProcess first, hd, ?_, ?_, ?_, ?_⟩
  · unfold selectProcess MethodGet MethodPost MethodDelete MethodOptions MethodHead
      MethodConnect SocksFive
    split_ifs with h1 h2 <;> simp <;> omega
  · unfold selectProcess MethodGet MethodPost MethodDelete MethodOptions MethodHead
      MethodConnect SocksFive
    split_ifs with h1 h2 <;> simp <;> omega
  · unfold selectProcess MethodGet MethodPost MethodDelete MethodOptions MethodHead
      MethodConnect SocksFive
    split_ifs with h1 h2 <;> simp <;> omega
  · intro i Handle
    unfold ProxyServer.handle
    rw [hd]

/-- C4, at a concrete stream: `GET` goes to the HTTP interceptor with its
three bytes unread. -/
theorem dispatch_by_first_byte_witness :
    ∃ p, dispatch [0x47, 0x45, 0x54] = some (p, [0x47, 0x45, 0x54]) ∧
      p = Interceptor.ProxyHttp := by
  obtain ⟨p, hp, hhttp, _⟩ := dispatch_by_first_byte 0x47 [0x45, 0x54] (by decide)
  exact ⟨p, hp, hhttp.mpr (by decide)⟩

/-- The events of a relay goroutine are not hooks of `handle`. -/
theorem RelayEvent.relayEvent_lifecycle (request response : HookName) (e : RelayEvent)
    (hrequest : (Event.hook request).lifecycle = false)
    (hresponse : (Event.hook response).lifecycle = false) :
    (e.event request response).lifecycle = false := by
  cases e
  · exact hrequest
  · exact hresponse
  · rfl
  · rfl

/-- The events of a WebSocket relay task are not hooks of `handle`. -/
theorem ProxyHttp.WsEvent.wsEvent_lifecycle (e : ProxyHttp.WsEvent) :
    e.event.lifecycle = false := by
  cases e with
  | relay e => exact RelayEvent.relayEvent_lifecycle _ _ e rfl rfl
  | close => rfl

/-- Events put before an outcome: no hook of `handle` is added if there is
none among them. -/
theorem Outcome.after_lifecycle (events : List Event) (o : Outcome)
    (hevents : ∀ e ∈ events, e.lifecycle = false)
    (ho : ∀ e ∈ o.returned ++ o.later, e.lifecycle = false) :
    ∀ e ∈ (o.after events).returned ++ (o.after events).later, e.lifecycle = false := by
  intro e he
  simp only [Outcome.after, List.mem_append] at he
  rcases he with (he | he) | he
  · exact hevents e he
  · exact ho e (List.mem_append.mpr (Or.inl he))
  · exact ho e (List.mem_append.mpr (Or.inr he))

/-- The source's `handleWsRequest` fires no hook of `handle`. -/
theorem ProxyHttp.Events.handleWsRequest_lifecycle (run : ProxyHttp.HttpRun) (request : Request) :
    ∀ e ∈ (handleWsRequest run request).returned ++ (handleWsRequest run request).later,
      e.lifecycle = false := by
  intro e he
  unfold handleWsRequest at he
  split at he
  · simp at he
  · split at he
    · simp at he
    · split at he
      · simp at he
        rcases he with rfl | rfl <;> rfl
      · simp only [List.mem_append, List.mem_map, List.mem_singleton] at he
        rcases he with ((rfl | ⟨x, _, rfl⟩) | rfl) | ⟨x, _, rfl⟩
        · rfl
        · exact WsEvent.wsEvent_lifecycle x
        · rfl
        · exact WsEvent.wsEvent_lifecycle x

/-- The source's `handleRequest` fires no hook of `handle`. -/
theorem ProxyHttp.Events.handleRequest_lifecycle (run : ProxyHttp.HttpRun) (request : Request) :
    ∀ e ∈ (handleRequest run request).returned ++ (handleRequest run request).later,
      e.lifecycle = false := by
  intro e he
  unfold handleRequest at he
  split at he
  · simp at he
    subst he
    rfl
  · cases hresponse : run.response <;> simp [hresponse] at he
    · subst he
      rfl
    · rcases he with rfl | rfl | rfl <;> rfl

/-- The source's `SslReceiveSend` fires no hook of `handle`. -/
theorem ProxyHttp.Events.SslReceiveSend_lifecycle (run : ProxyHttp.HttpRun) :
    ∀ e ∈ (SslReceiveSend run).returned ++ (SslReceiveSend run).later, e.lifecycle = false := by
  have halert : ∀ e ∈ [Event.read] ++ (if run.alert then [Event.write] else []),
      e.lifecycle = false := by
    intro e he
    cases h : run.alert <;> simp [h] at he
    · subst he
      rfl
    · rcases he with rfl | rfl <;> rfl
  unfold SslReceiveSend
  split
  · simp
  · split
    · simpa using halert
    · apply Outcome.after_lifecycle _ _ halert
      split
      · simp
      · exact handleWsRequest_lifecycle run _
    · apply Outcome.after_lifecycle
      · intro e he
        simp at he
        rcases he with rfl | rfl | rfl <;> rfl
      · split
        · simp
        · split
          · exact handleWsRequest_lifecycle run _
          · intro e he
            cases hresponse : run.response <;> simp [hresponse] at he
            · subst he
              rfl
            · rcases he with rfl | rfl | rfl <;> rfl

/-- The source's `ProxyHttp.Handle` fires no hook of `handle`. -/
theorem ProxyHttp.Events.httpHandle_lifecycle (run : ProxyHttp.HttpRun) :
    ∀ e ∈ (Handle run).returned ++ (Handle run).later, e.lifecycle = false := by
  unfold Handle
  apply Outcome.after_lifecycle
  · intro e he
    simp at he
    subst he
    rfl
  · split
    · simp
    · split
      · unfold handleSslRequest
        split
        · intro e he
          simp at he
          subst he
          rfl
        · split
          · intro e he
            simp at he
            subst he
            rfl
          · apply Outcome.after_lifecycle
            · intro e he
              simp at he
              subst he
              rfl
            · exact SslReceiveSend_lifecycle run
      · exact handleRequest_lifecycle run _

/-- The source's `ProxySocks5.Handle` fires no hook of `handle`. -/
theorem ProxySocks5.Events.socks5Handle_lifecycle (run : ProxySocks5.Socks5Run) (o : Outcome)
    (h : Handle run = some o) : ∀ e ∈ o.returned ++ o.later, e.lifecycle = false := by
  have hfixed : ∀ e ∈ [Event.read, Event.write, Event.read, Event.write],
      e.lifecycle = false := by
    decide
  unfold Handle at h
  split at h
  · cases h
    decide
  · split at h
    · cases h
      decide
    · split at h
      · cases h
        decide
      · split at h
        · cases h
          decide
        · split at h
          · cases h
          · cases h
            intro e he
            simp only [List.mem_append, List.mem_map] at he
            rcases he with (he | ⟨x, _, rfl⟩) | ⟨x, _, rfl⟩
            · exact hfixed e he
            · exact RelayEvent.relayEvent_lifecycle _ _ x rfl rfl
            · exact RelayEvent.relayEvent_lifecycle _ _ x rfl rfl

/-- No interceptor fires a hook of `handle`. -/
theorem World.outcome_lifecycle (w : World) (process : Interceptor) (o : Outcome)
    (h : w.outcome process = some o) : ∀ e ∈ o.returned ++ o.later, e.lifecycle = false := by
  cases process with
  | ProxyHttp =>
    cases h
    exact ProxyHttp.Events.httpHandle_lifecycle w.http
  | ProxySocks5 => exact ProxySocks5.Events.socks5Handle_lifecycle w.socks5 o h
  | ProxyTcp =>
    cases h
    intro e he
    simp only [TcpRun.outcome, List.mem_append, List.mem_map] at he
    rcases he with ⟨x, _, rfl⟩ | ⟨x, _, rfl⟩ <;> exact RelayEvent.relayEvent_lifecycle _ _ x rfl rfl

/-- Neither the SOCKS5 interceptor nor the TCP pipe closes the accepted
socket. -/
theorem World.outcome_no_close (w : World) (process : Interceptor) (o : Outcome)
    (hprocess : process ≠ Interceptor.ProxyHttp) (h : w.outcome process = some o) :
    Event.close ∉ o.returned ++ o.later := by
  have hrelay : ∀ (request response : HookName) (x : RelayEvent),
      Event.close ≠ x.event request response := by
    intro request response x
    cases x <;> simp [RelayEvent.event]
  cases process with
  | ProxyHttp => exact absurd rfl hprocess
  | ProxyTcp =>
    cases h
    intro he
    simp only [TcpRun.outcome, List.mem_append, List.mem_map] at he
    rcases he with ⟨x, _, hx⟩ | ⟨x, _, hx⟩ <;> exact hrelay _ _ x hx.symm
  | ProxySocks5 =>
    simp only [World.outcome, ProxySocks5.Events.Handle] at h
    split at h
    · cases h
      decide
    · split at h
      · cases h
        decide
      · split at h
        · cases h
          decide
        · split at h
          · cases h
            decide
          · split at h
            · cases h
            · cases h
              intro he
              simp only [List.mem_append, List.mem_map] at he
              rcases he with (he | ⟨x, _, hx⟩) | ⟨x, _, hx⟩
              · revert he
                decide
              · exact hrelay _ _ x hx.symm
              · exact hrelay _ _ x hx.symm

/-- The function `handle` does not exit exactly when the connection is SOCKS5,
the negotiation went through to the flushed reply, and the command is not
`CONNECT`: no pump is started and the receive on `out` blocks. -/
theorem connection_none_iff (i : ProxyServer) (w : World) (conn : List Nat) :
    connection i w conn = none ↔
      (∃ reader, dispatch conn = some (Interceptor.ProxySocks5, reader)) ∧
        w.socks5.greeting = true ∧ w.socks5.request = true ∧ w.socks5.dial = true ∧
        w.socks5.flush = true ∧ w.socks5.connect = false := by
  unfold connection
  cases hd : dispatch conn with
  | none => simp
  | some pr =>
    obtain ⟨process, reader⟩ := pr
    cases process with
    | ProxyHttp => simp [World.outcome]
    | ProxyTcp => simp [World.outcome]
    | ProxySocks5 =>
      simp only [World.outcome, ProxySocks5.Events.Handle]
      cases w.socks5.greeting <;> cases w.socks5.request <;> cases w.socks5.dial <;>
        cases w.socks5.flush <;> cases w.socks5.connect <;> simp

/-- When no goroutine outlives the interceptor, the events of the connection
are those of the goroutine that runs `handle`. -/
theorem connection_eq_handle (i : ProxyServer) (w : World) (conn : List Nat)
    (Handle : Interceptor → List Nat → List Event)
    (h : ∀ process reader, dispatch conn = some (process, reader) →
      w.outcome process = some ⟨Handle process reader, []⟩) :
    connection i w conn = some (i.handle Handle conn) := by
  unfold connection ProxyServer.handle
  cases hd : dispatch conn with
  | none => simp
  | some pr =>
    obtain ⟨process, reader⟩ := pr
    simp [h process reader hd]

/-- On the WebSocket path the socket is closed twice.  A `CONNECT` whose TLS
handshake fails on a plaintext WebSocket upgrade, with the upstream dial
failing: the deferred close of the client endpoint (modelled from the spec)
closes the socket before the close hook fires, and `handle` closes it again. -/
theorem connection_closes_twice_on_websocket :
    connection ⟨true, true⟩ lateWorld (stringBytes "CONNECT echo.test:80 HTTP/1.1\r\n\r\n") =
      some [Event.hook HookName.tcpConnect, Event.read, Event.read, Event.write, Event.read,
        Event.write, Event.close, Event.hook HookName.tcpClose, Event.close] := by
  decide

/-- C5 (as stated, refuted): a SOCKS5 `CONNECT` that is relayed.  `Handle`
returns at the error of the client pump; the target pump, which holds a chunk
read from the target, is not waited for.  After `handle` has fired the close
hook and closed the socket, the response hook fires and the chunk is written
to the closed socket: a hook of the interceptor after the close hook, and a
socket operation after the close. -/
theorem connection_relay_outlives_close :
    connection ⟨true, true⟩ lateWorld [5, 1, 0] =
      some [Event.hook HookName.tcpConnect, Event.read,
        Event.read, Event.write, Event.read, Event.write,
        Event.read, Event.hook HookName.socks5Request, Event.read,
        Event.hook HookName.tcpClose, Event.close,
        Event.hook HookName.socks5Response, Event.write] := by
  decide

/-- C5 (amended): on every accepted connection on which `handle` exits, with
the close hook registered, the close hook fires exactly once, after the
connect hook and after every hook fired and every socket operation made
before the interceptor returned; `handle` closes the socket after the close
hook.  What comes between the close hook and that close, or after it, are
events of goroutines that the interceptor started and did not wait for, and
nothing else: when there are none, the trace ends with the close hook and the
close.  The close by `handle` is the only close of the socket when neither
the interceptor nor its goroutines closed it. -/
theorem connection_close_hook_once (i : ProxyServer) (w : World) (conn : List Nat)
    (trace : List Event) (hhook : i.OnTcpCloseEvent = true)
    (hexit : connection i w conn = some trace) :
    ∃ o : Outcome, ∃ front mid back : List Event,
      (dispatch conn = none → o = ⟨[], []⟩) ∧
      (∀ process reader, dispatch conn = some (process, reader) →
        w.outcome process = some o) ∧
      trace = front ++ [Event.hook HookName.tcpClose] ++ mid ++ [Event.close] ++ back ∧
      trace.count (Event.hook HookName.tcpClose) = 1 ∧
      (∃ early, front =
        (if i.OnTcpConnectEvent then [Event.hook HookName.tcpConnect] else []) ++ [Event.read] ++
          o.returned ++ early ∧ early ++ mid ++ back = o.later) ∧
      (o.returned ++ o.later).count (Event.hook HookName.tcpConnect) = 0 ∧
      (Event.close ∉ o.returned ++ o.later → trace.count Event.close = 1) := by
  have key : ∀ o : Outcome, (∀ e ∈ o.returned ++ o.later, e.lifecycle = false) →
      trace = (if i.OnTcpConnectEvent then [Event.hook HookName.tcpConnect] else []) ++
        [Event.read] ++ o.returned ++ o.later.take w.early ++ [Event.hook HookName.tcpClose] ++
        (o.later.drop w.early).take w.between ++ [Event.close] ++
        o.later.drop (w.early + w.between) →
      (trace = ((if i.OnTcpConnectEvent then [Event.hook HookName.tcpConnect] else []) ++
          [Event.read] ++ o.returned ++ o.later.take w.early) ++
          [Event.hook HookName.tcpClose] ++ (o.later.drop w.early).take w.between ++
          [Event.close] ++ o.later.drop (w.early + w.between) ∧
        trace.count (Event.hook HookName.tcpClose) = 1 ∧
        (∃ early, (if i.OnTcpConnectEvent then [Event.hook HookName.tcpConnect] else []) ++
            [Event.read] ++ o.returned ++ o.later.take w.early =
          (if i.OnTcpConnectEvent then [Event.hook HookName.tcpConnect] else []) ++
            [Event.read] ++ o.returned ++ early ∧
          early ++ (o.later.drop w.early).take w.between ++
            o.later.drop (w.early + w.between) = o.later) ∧
        (o.returned ++ o.later).count (Event.hook HookName.tcpConnect) = 0 ∧
        (Event.close ∉ o.returned ++ o.later → trace.count Event.close = 1)) := by
    intro o hplain htrace
    have hparts : o.later.take w.early ++ (o.later.drop w.early).take w.between ++
        o.later.drop (w.early + w.between) = o.later := by
      rw [List.append_assoc, ← List.drop_drop, List.take_append_drop, List.take_append_drop]
    have hcount : ∀ a : Event, a ∉ o.returned ++ o.later →
        o.returned.count a = 0 ∧ (o.later.take w.early).count a = 0 ∧
          ((o.later.drop w.early).take w.between).count a = 0 ∧
          (o.later.drop (w.early + w.between)).count a = 0 := by
      intro a ha
      rw [List.mem_append, not_or] at ha
      refine ⟨List.count_eq_zero.mpr ha.1, List.count_eq_zero.mpr ?_,
        List.count_eq_zero.mpr ?_, List.count_eq_zero.mpr ?_⟩
      · exact fun h => ha.2 (List.mem_of_mem_take h)
      · exact fun h => ha.2 (List.mem_of_mem_drop (List.mem_of_mem_take h))
      · exact fun h => ha.2 (List.mem_of_mem_drop h)
    have hclose : Event.hook HookName.tcpClose ∉ o.returned ++ o.later := by
      intro h
      have := hplain _ h
      simp [Event.lifecycle] at this
    have hconnect : Event.hook HookName.tcpConnect ∉ o.returned ++ o.later := by
      intro h
      have := hplain _ h
      simp [Event.lifecycle] at this
    refine ⟨by rw [htrace], ?_, ⟨o.later.take w.early, rfl, hparts⟩,
      List.count_eq_zero.mpr hconnect, ?_⟩
    · obtain ⟨h1, h2, h3, h4⟩ := hcount _ hclose
      rw [htrace]
      simp only [List.count_append, h1, h2, h3, h4]
      cases i.OnTcpConnectEvent <;> decide
    · intro hno
      obtain ⟨h1, h2, h3, h4⟩ := hcount _ hno
      rw [htrace]
      simp only [List.count_append, h1, h2, h3, h4]
      cases i.OnTcpConnectEvent <;> decide
  unfold connection at hexit
  simp only [hhook, if_true] at hexit
  cases hd : dispatch conn with
  | none =>
    rw [hd] at hexit
    simp only [Option.some.injEq] at hexit
    obtain ⟨h1, h2, h3, h4, h5⟩ := key ⟨[], []⟩ (by simp) (by simpa using hexit.symm)
    exact ⟨⟨[], []⟩, _, _, _, fun _ => rfl, fun _ _ h => (by cases h), h1, h2, h3, h4, h5⟩
  | some pr =>
    obtain ⟨process, reader⟩ := pr
    rw [hd] at hexit
    simp only at hexit
    cases ho : w.outcome process with
    | none =>
      rw [ho] at hexit
      cases hexit
    | some o =>
      rw [ho] at hexit
      simp only [Option.some.injEq] at hexit
      obtain ⟨h1, h2, h3, h4, h5⟩ := key o (World.outcome_lifecycle w process o ho) hexit.symm
      refine ⟨o, _, _, _, fun h => (by cases h), ?_, h1, h2, h3, h4, h5⟩
      intro process2 reader2 h
      cases h
      exact ho

/-- The amended claim at a relayed SOCKS5 connection: one close hook, after
the events of the two pumps up to the return of `Handle`; the response hook
and the write of the pump that was not waited for follow the close. -/
theorem connection_close_hook_once_witness :
    ∃ o : Outcome, ∃ front mid back : List Event,
      (dispatch [5, 1, 0] = none → o = ⟨[], []⟩) ∧
      (∀ process reader, dispatch [5, 1, 0] = some (process, reader) →
        lateWorld.outcome process = some o) ∧
      [Event.hook HookName.tcpConnect, Event.read,
        Event.read, Event.write, Event.read, Event.write,
        Event.read, Event.hook HookName.socks5Request, Event.read,
        Event.hook HookName.tcpClose, Event.close,
        Event.hook HookName.socks5Response, Event.write] =
        front ++ [Event.hook HookName.tcpClose] ++ mid ++ [Event.close] ++ back ∧
      List.count (Event.hook HookName.tcpClose) [Event.hook HookName.tcpConnect, Event.read,
        Event.read, Event.write, Event.read, Event.write,
        Event.read, Event.hook HookName.socks5Request, Event.read,
        Event.hook HookName.tcpClose, Event.close,
        Event.hook HookName.socks5Response, Event.write] = 1 ∧
      (∃ early, front =
        (if (ProxyServer.mk true true).OnTcpConnectEvent then [Event.hook HookName.tcpConnect]
          else []) ++ [Event.read] ++ o.returned ++ early ∧ early ++ mid ++ back = o.later) ∧
      (o.returned ++ o.later).count (Event.hook HookName.tcpConnect) = 0 ∧
      (Event.close ∉ o.returned ++ o.later →
        List.count Event.close [Event.hook HookName.tcpConnect, Event.read,
          Event.read, Event.write, Event.read, Event.write,
          Event.read, Event.hook HookName.socks5Request, Event.read,
          Event.hook HookName.tcpClose, Event.close,
          Event.hook HookName.socks5Response, Event.write] = 1) :=
  connection_close_hook_once ⟨true, true⟩ lateWorld [5, 1, 0] _ rfl (by decide)

/-! ## The SOCKS5 negotiation -/

namespace ProxySocks5

/-- Reading as many method bytes as were announced leaves the reader right
after them. -/
theorem readMethods_append (methods rest : List Nat) :
    readMethods methods.length (methods ++ rest) = some rest := by
  induction methods with
  | nil => simp [readMethods]
  | cons m methods ih => simp [readMethods, ReadByte, ih]

/-- Whatever `Handle` flushes starts with the batch `05 00`. -/
theorem Handle_flushed_cases (net : Network) (reader : List Nat) :
    (Handle net reader).flushed = [] ∨
      ∃ later, (Handle net reader).flushed = [5, 0] :: later := by
  unfold Handle
  repeat' split
  all_goals first
    | exact Or.inl rfl
    | exact Or.inr ⟨_, rfl⟩

/-- C6: for a greeting `05`, `NMETHODS`, and that many method bytes, the
first batch `Handle` flushes is exactly `05 00`, whatever the methods are and
also when there is none; what follows it belongs to the request phase.  On no
input does `Handle` open its output with anything else. -/
theorem Handle_greeting_reply (net : Network) (methodNum : Nat) (methods rest : List Nat)
    (hbyte : methodNum < 256) (hlen : methods.length = methodNum) :
    (Handle net (5 :: methodNum :: (methods ++ rest))).flushed =
        [5, 0] :: (request net rest).flushed ∧
      ∀ reader, (Handle net reader).flushed = [] ∨
        ∃ later, (Handle net reader).flushed = [5, 0] :: later := by
  refine ⟨?_, Handle_flushed_cases net⟩
  subst hlen
  have hle : ¬ methods.length > 0xFF := by omega
  simp [Handle, ReadByte, Version, hle, readMethods_append]

/-- C6, at a concrete greeting that offers only the methods `01` and `02`. -/
theorem Handle_greeting_reply_witness :
    (Handle deadNetwork (5 :: 2 :: ([1, 2] ++ []))).flushed =
      [5, 0] :: (request deadNetwork []).flushed :=
  (Handle_greeting_reply deadNetwork 2 [1, 2] [] (by decide) rfl).1

/-- A read of `n` bytes from a stream that starts with `n > 0` bytes
`block` returns the block and leaves the reader right after it. -/
theorem Read_block (block tail : List Nat) (hpos : block ≠ []) :
    Read block.length (block ++ tail) = some (block, tail) := by
  unfold Read
  have hne : block ++ tail ≠ [] := by
    intro h
    exact hpos (List.append_eq_nil.mp h).1
  rw [if_neg hne]
  simp

/-- On a well-formed address of any of the three types, the `switch
targetType` reads exactly the address and yields a host name. -/
theorem readAddress_valid (net : Network) (targetType : Nat) (address tail : List Nat)
    (haddr : (targetType = 1 ∧ address.length = 4) ∨ (targetType = 4 ∧ address.length = 16) ∨
      (targetType = 3 ∧ ∃ name, name ≠ [] ∧ address = name.length :: name)) :
    ∃ hostname, readAddress net targetType (address ++ tail) = some (hostname, tail) := by
  rcases haddr with ⟨ht, hl⟩ | ⟨ht, hl⟩ | ⟨ht, name, hname, hl⟩
  · subst ht
    have hne : address ≠ [] := by
      intro h
      rw [h] at hl
      simp at hl
    have hr := Read_block address tail hne
    rw [hl] at hr
    exact ⟨net.IPString address, by simp [readAddress, TargetIpv4, hr, hl]⟩
  · subst ht
    have hne : address ≠ [] := by
      intro h
      rw [h] at hl
      simp at hl
    have hr := Read_block address tail hne
    rw [hl] at hr
    exact ⟨net.IPString address, by simp [readAddress, TargetIpv4, TargetIpv6, hr, hl]⟩
  · subst ht
    subst hl
    have hr := Read_block name tail hname
    have hpos : ¬ name.length ≤ 0 := by
      have := List.length_pos.mpr hname
      omega
    have hpos2 : ¬ name = [] := hname
    exact ⟨(net.ResolveIPAddr (bytesString name)).getD (bytesString name), by
      simp [readAddress, TargetIpv4, TargetIpv6, TargetDomain, ReadByte, hr, hpos2]⟩

/-- C8 (the code at the failing input): the client asks for the name
`[fe80::1%eth0]` (14 bytes), the remote host of the target is not an address
that `net.ParseIP` accepts, and the reply's address block is `03`, the length
byte 17 and the 17 bytes of `[fe80::1%eth0]:80`, the dialled address with its
port. -/
theorem Handle_domain_reply_carries_port :
    (Handle zonedNetwork ([5, 1, 0] ++ zonedRequest)).flushed =
      [[5, 0], [5, 0, 0] ++ ([3, 17] ++ stringBytes "[fe80::1%eth0]:80") ++ [0, 80]] := by
  decide

/-! ## The SOCKS5 pumps -/

/-- The loop sends the error of a pass and stops there, or goes on with the
buffer the pass leaves. -/
theorem loop_cons (buff : Nat) (p : Pass) (script : List Pass) :
    loop buff (p :: script) =
      match (pass buff p).sent with
      | some e => ⟨[buff], [e], false⟩
      | none =>
        ⟨buff :: (loop (pass buff p).buff script).offered,
          (loop (pass buff p).buff script).out, (loop (pass buff p).buff script).running⟩ := by
  rfl

/-- A pump that has left its loop has sent one error, a pump still in its
loop has sent none. -/
theorem loop_out (script : List Pass) (buff : Nat) :
    ((loop buff script).running = false → (loop buff script).out.length = 1) ∧
      ((loop buff script).running = true → (loop buff script).out = []) := by
  induction script generalizing buff with
  | nil => simp [loop]
  | cons p script ih =>
    unfold loop
    cases hs : (pass buff p).sent with
    | some e => simp
    | none => exact ih (pass buff p).buff

/-- C9 (the code at the failing input): the first read returns three bytes
together with an error and the three bytes are written in full; the second
read returns no byte and an error.  After the first pass the pump has sent
nothing and is still running; it makes the second read, and only then sends
its error and stops. -/
theorem Transport_reports_read_error_late :
    Transport [⟨3, true, 3, false⟩] = ⟨[10 * 1024], [], true⟩ ∧
      Transport [⟨3, true, 3, false⟩, ⟨0, true, 0, false⟩] =
        ⟨[10 * 1024, 3], [PumpError.read1], false⟩ := by
  decide

/-- The outcome of one pass, with `readLen` the length read: a short write
(`0 ≤ writeLen < readLen`) and a negative length returned without an error
each give an error to send, and so does a read that fails having returned no
byte; after a read of `readLen > 0` bytes there is none exactly when
`writeLen = readLen` and the hook or resolver returned no error.  A pump that
has left its loop has sent one error, a pump still in it none. -/
theorem pass_outcomes (buff : Nat) (p : Pass) :
    (pass buff p).readLen = min p.avail buff ∧
    (0 < (pass buff p).readLen → 0 ≤ p.writeLen → p.writeLen < (pass buff p).readLen →
      (pass buff p).sent = some PumpError.write2) ∧
    (0 < (pass buff p).readLen → p.writeLen < 0 → p.writeErr = false →
      (pass buff p).sent = some PumpError.write1) ∧
    ((pass buff p).readLen = 0 → p.readErr = true →
      (pass buff p).sent = some PumpError.read1) ∧
    (0 < (pass buff p).readLen →
      ((pass buff p).sent = none ↔ (p.writeLen = (pass buff p).readLen ∧ p.writeErr = false))) ∧
    (∀ script : List Pass,
      ((loop buff script).running = false → (loop buff script).out.length = 1) ∧
        ((loop buff script).running = true → (loop buff script).out = [])) := by
  have hlen : (pass buff p).readLen = min p.avail buff := by
    unfold pass
    simp only
    split_ifs <;> rfl
  refine ⟨hlen, ?_⟩
  rw [hlen]
  refine ⟨?_, ?_, ?_, ?_, fun script => loop_out script buff⟩
  all_goals unfold pass
  all_goals simp only
  all_goals generalize min p.avail buff = n
  all_goals obtain ⟨avail, readErr, writeLen, writeErr⟩ := p
  all_goals simp only
  · intro hpos h0 hlt
    rw [if_pos hpos]
    have h1 : decide (writeLen < 0) = false := by simpa using h0
    have h2 : decide ((n : Int) < writeLen) = false := by simp; omega
    have h3 : (n : Int) ≠ writeLen := by omega
    simp only [h1, h2, Bool.or_self, Bool.false_and, if_false, Bool.false_eq_true]
    rw [if_pos h3]
  · intro hpos hneg herr
    rw [if_pos hpos]
    have h1 : decide (writeLen < 0) = true := by simpa using hneg
    simp [h1, herr]
  · intro hzero herr
    subst hzero
    simp [herr]
  · intro hpos
    rw [if_pos hpos]
    by_cases h1 : writeLen < 0
    · have hd : decide (writeLen < 0) = true := by simpa using h1
      have hne : (n : Int) ≠ 0 := by omega
      have hne2 : writeLen ≠ (n : Int) := by omega
      cases writeErr <;> simp [hd, hne, hne2]
    · have hd : decide (writeLen < 0) = false := by simpa using h1
      by_cases h2 : (n : Int) < writeLen
      · have hd2 : decide ((n : Int) < writeLen) = true := by simpa using h2
        have hne : (n : Int) ≠ 0 := by omega
        have hne2 : writeLen ≠ (n : Int) := by omega
        cases writeErr <;> simp [hd, hd2, hne, hne2]
      · have hd2 : decide ((n : Int) < writeLen) = false := by simpa using h2
        by_cases heq : (n : Int) = writeLen
        · cases writeErr <;> simp [hd, hd2, heq]
        · have hne2 : writeLen ≠ (n : Int) := fun h => heq h.symm
          cases writeErr <;> simp [hd, hd2, heq, hne2]

/-- C10 (the code at the failing input): the first read returns three bytes,
written in full; the second read is offered a buffer of three bytes, although
10240 bytes are ready. -/
theorem Transport_buffer_shrinks :
    (Transport [⟨3, false, 3, false⟩, ⟨10240, false, 3, false⟩]).offered = [10240, 3] ∧
      (pass 3 ⟨10240, false, 3, false⟩).readLen = 3 := by
  decide

end ProxySocks5

/-! ## The dialer -/

namespace ProxyHttp

/-- A string without a colon has no last index of `:`. -/
theorem lastIndexGo_colon_none (port : List Char) (hport : ':' ∉ port) :
    lastIndexGo [':'] port = none := by
  induction port with
  | nil => simp [lastIndexGo]
  | cons c cs ih =>
    have hc : c ≠ ':' := fun h => hport (by simp [h])
    have hcs : ':' ∉ cs := fun h => hport (List.mem_cons_of_mem c h)
    have hb : (':' == c) = false := beq_eq_false_iff_ne.mpr (fun h => hc h.symm)
    simp [lastIndexGo, ih hcs, List.isPrefixOf, hb]

/-- The last colon of `host:port`, for a port without colon, sits right after
the host. -/
theorem lastIndexGo_colon (host port : List Char) (hport : ':' ∉ port) :
    lastIndexGo [':'] (host ++ ':' :: port) = some host.length := by
  induction host with
  | nil => simp [lastIndexGo, lastIndexGo_colon_none port hport, List.isPrefixOf]
  | cons c cs ih => simp [lastIndexGo, ih]

/-- The loop of `DialContext` ends on the first entry without a colon, and on
the last entry when there is none. -/
theorem selectIP_eq (ipList : List String) (ip : String) :
    selectIP ip ipList =
      ((ipList.find? (fun item => !Contains item ":")).getD (ipList.getLast?.getD ip)) := by
  induction ipList generalizing ip with
  | nil => simp [selectIP]
  | cons item ipList ih =>
    by_cases hc : Contains item ":" = true
    · simp only [selectIP, hc, Bool.not_true, Bool.false_eq_true, if_false, List.find?_cons]
      rw [ih item]
      cases ipList with
      | nil => simp
      | cons item2 ipList =>
        have h1 : (item2 :: ipList).getLast? =
            some ((item2 :: ipList).getLast (List.cons_ne_nil _ _)) :=
          List.getLast?_eq_getLast _ _
        have h2 : (item :: item2 :: ipList).getLast? = (item2 :: ipList).getLast? := by simp
        simp only [h2, h1, Option.getD_some]
    · have hf : Contains item ":" = false := by simpa using hc
      simp [selectIP, hf, List.find?_cons]

/-- The slices `addr[:separator]` and `addr[separator:]` of `host:port` at the
index of its last colon are the host and the colon with the port. -/
theorem slices_at_last_colon (host port : String) (hport : ':' ∉ port.data) :
    LastIndex (host ++ ":" ++ port) ":" = (host.length : Int) ∧
      sliceTo (host ++ ":" ++ port) (host.length : Int) = some host ∧
      sliceFrom (host ++ ":" ++ port) (host.length : Int) = some (":" ++ port) := by
  have hdata : (host ++ ":" ++ port).data = host.data ++ ':' :: port.data := by
    simp [String.data_append]
  have hlen : (host ++ ":" ++ port).length = host.length + (1 + port.length) := by
    have hh : host.length = host.data.length := rfl
    have hp : port.length = port.data.length := rfl
    rw [show (host ++ ":" ++ port).length = (host ++ ":" ++ port).data.length from rfl, hdata,
      List.length_append, List.length_cons]
    omega
  have hhost : host.data.length = host.length := rfl
  refine ⟨?_, ?_, ?_⟩
  · unfold LastIndex
    rw [hdata]
    have hsub : (":" : String).data = [':'] := rfl
    rw [hsub, lastIndexGo_colon host.data port.data hport]
    rfl
  · unfold sliceTo
    rw [if_pos (by rw [hlen]; omega), hdata, Int.toNat_ofNat, ← hhost, List.take_left]
  · unfold sliceFrom
    rw [if_pos (by rw [hlen]; omega), hdata, Int.toNat_ofNat, ← hhost, List.drop_left]
    rfl

/-- The text that `DialContext` hands to `net.ResolveTCPAddr`, for an address
`host:port` and a non-empty list fetched for `host`: the first entry of the
list whose text contains no colon when there is one, and the last entry of
the list otherwise, followed by the colon and the port that stand after the
last colon of the address.  The address dialled is what the resolver makes of
this text. -/
theorem DialContext_address (Fetch : String → List String)
    (ResolveTCPAddr : String → Option String) (host port : String)
    (hport : ':' ∉ port.data) (hlist : Fetch host ≠ []) :
    DialContext Fetch ResolveTCPAddr (host ++ ":" ++ port) =
      some ((ResolveTCPAddr
        (((Fetch host).find? (fun item => !Contains item ":")).getD
          ((Fetch host).getLast hlist) ++ ":" ++ port)).getD "<nil>") := by
  obtain ⟨hidx, hto, hfrom⟩ := slices_at_last_colon host port hport
  unfold DialContext
  simp only [hidx, hto, hfrom]
  rw [selectIP_eq, List.getLast?_eq_getLast _ hlist, Option.getD_some, String.append_assoc]

/-- With an IPv4 entry in the list, the first such entry is dialled, not the
IPv6 entry before it nor the IPv4 entry after it. -/
theorem DialContext_prefers_ipv4 :
    DialContext (fun _ => ["2001:db8::1", "192.0.2.7", "192.0.2.8"]) resolveLiteral
      ("example.test" ++ ":" ++ "443") = some "192.0.2.7:443" :=
  (DialContext_address (fun _ => ["2001:db8::1", "192.0.2.7", "192.0.2.8"]) resolveLiteral
    "example.test" "443" (by decide) (by simp)).trans (by decide)

/-- C11 (the code at the failing input): the list fetched for `example.test`
holds IPv6 entries only.  The text built from the last entry,
`2001:db8::2:443`, has no brackets, `net.ResolveTCPAddr` rejects it, and the
address handed to `net.DialTimeout` is `<nil>`, the text of the nil
`*TCPAddr`: no entry of the list is dialled. -/
theorem DialContext_ipv6_only_dials_nil :
    resolveLiteral "2001:db8::2:443" = none ∧
      DialContext (fun _ => ["2001:db8::1", "2001:db8::2"]) resolveLiteral
        "example.test:443" = some "<nil>" := by
  decide

end ProxyHttp

/-! ## The port of a SOCKS5 request -/

namespace ProxySocks5

/-- On two bytes `ByteToInt` is their big-endian value. -/
theorem ByteToInt_bytes (b0 b1 : Nat) (h0 : b0 < 256) (h1 : b1 < 256) :
    ByteToInt [b0, b1] = 256 * b0 + b1 := by
  have hmask : (0xFF : Nat) = 2 ^ 8 - 1 := by norm_num
  have m0 : b0 &&& 0xFF = b0 := by
    rw [hmask, Nat.and_pow_two_sub_one_eq_mod, Nat.mod_eq_of_lt (by omega)]
  have m1 : b1 &&& 0xFF = b1 := by
    rw [hmask, Nat.and_pow_two_sub_one_eq_mod, Nat.mod_eq_of_lt (by omega)]
  have hor : 2 ^ 8 * b0 + b1 = 2 ^ 8 * b0 ||| b1 := Nat.mul_add_lt_is_or (by omega) b0
  show ((b0 &&& 0xFF) <<< 8) ||| (b1 &&& 0xFF) = 256 * b0 + b1
  rw [m0, m1, Nat.shiftLeft_eq, Nat.mul_comm b0 (2 ^ 8), ← hor]
  norm_num

/-- A well-formed request reaches the reply with the port bytes it carries:
the port string is the decimal text of `ByteToInt` of the two bytes and the
dialled address is the host name followed by a colon and that string. -/
theorem request_eq_reply (net : Network) (command targetType : Nat) (address : List Nat)
    (p0 p1 : Nat) (rest : List Nat)
    (hcmd : command = 1 ∨ command = 2 ∨ command = 3)
    (haddr : (targetType = 1 ∧ address.length = 4) ∨ (targetType = 4 ∧ address.length = 16) ∨
      (targetType = 3 ∧ ∃ name, name ≠ [] ∧ address = name.length :: name)) :
    ∃ hostname,
      request net (5 :: command :: 0 :: targetType :: (address ++ p0 :: p1 :: rest)) =
        reply net command (toString (ByteToInt [p0, p1]))
          (hostname ++ ":" ++ toString (ByteToInt [p0, p1])) [p0, p1] := by
  obtain ⟨host0, hra⟩ := readAddress_valid net targetType address (p0 :: p1 :: rest) haddr
  have hc : ¬ (command ≠ CommandConn ∧ command ≠ CommandBind ∧ command ≠ CommandUdp) := by
    unfold CommandConn CommandBind CommandUdp
    omega
  have ht : ¬ (targetType ≠ TargetIpv4 ∧ targetType ≠ TargetIpv6 ∧
      targetType ≠ TargetDomain) := by
    unfold TargetIpv4 TargetIpv6 TargetDomain
    rcases haddr with ⟨h, _⟩ | ⟨h, _⟩ | ⟨h, _⟩ <;> omega
  have hread : Read 2 (p0 :: p1 :: rest) = some ([p0, p1], rest) := by
    simp [Read]
  refine ⟨host0, ?_⟩
  unfold request
  simp only [ReadByte, Version, Rsv, ne_eq, not_true_eq_false, if_false, hc, ht, hra, hread]
  rfl

/-- The dial recorded by `reply` is made to the address it was given. -/
theorem reply_dial (net : Network) (command : Nat) (port hostname : String)
    (buffer : List Nat) :
    ∃ network tls, (reply net command port hostname buffer).dial =
      some (network, hostname, tls) := by
  have htriple : dialTarget command port hostname =
      ((dialTarget command port hostname).1, hostname,
        (dialTarget command port hostname).2.2) := by
    unfold dialTarget
    split_ifs <;> rfl
  refine ⟨(dialTarget command port hostname).1, (dialTarget command port hostname).2.2, ?_⟩
  unfold reply
  split <;> exact congrArg some htriple

/-- C12: for two port bytes `b0 b1`, `ByteToInt` returns `256 * b0 + b1`, a
value between 0 and 65535, and in every well-formed request that carries them
the address dialled ends with a colon and the decimal text of that value. -/
theorem ByteToInt_port (b0 b1 : Nat) (h0 : b0 < 256) (h1 : b1 < 256) :
    ByteToInt [b0, b1] = 256 * b0 + b1 ∧
    ByteToInt [b0, b1] ≤ 65535 ∧
    ∀ (net : Network) (command targetType : Nat) (address rest : List Nat),
      (command = 1 ∨ command = 2 ∨ command = 3) →
      ((targetType = 1 ∧ address.length = 4) ∨ (targetType = 4 ∧ address.length = 16) ∨
        (targetType = 3 ∧ ∃ name, name ≠ [] ∧ address = name.length :: name)) →
      ∃ network hostname tls,
        (request net (5 :: command :: 0 :: targetType :: (address ++ b0 :: b1 :: rest))).dial =
          some (network, hostname ++ ":" ++ toString (256 * b0 + b1), tls) := by
  have hval := ByteToInt_bytes b0 b1 h0 h1
  refine ⟨hval, by omega, ?_⟩
  intro net command targetType address rest hcmd haddr
  obtain ⟨hostname, hreq⟩ := request_eq_reply net command targetType address b0 b1 rest hcmd haddr
  obtain ⟨network, tls, hdial⟩ := reply_dial net command (toString (ByteToInt [b0, b1]))
    (hostname ++ ":" ++ toString (ByteToInt [b0, b1])) [b0, b1]
  rw [hval] at hreq hdial
  exact ⟨network, hostname, tls, by rw [hreq, hdial]⟩

/-- C12, at the port bytes `01 BB` and `00 50`: the values are 443 and 80,
and their texts `443` and `80`. -/
theorem ByteToInt_port_witness :
    (ByteToInt [0x01, 0xBB] = 443 ∧ toString (ByteToInt [0x01, 0xBB]) = "443") ∧
      (ByteToInt [0x00, 0x50] = 80 ∧ toString (ByteToInt [0x00, 0x50]) = "80") := by
  have h443 := (ByteToInt_port 0x01 0xBB (by decide) (by decide)).1
  have h80 := (ByteToInt_port 0x00 0x50 (by decide) (by decide)).1
  refine ⟨⟨h443, ?_⟩, ⟨h80, ?_⟩⟩
  · rw [h443]
    decide
  · rw [h80]
    decide

end ProxySocks5

/-! ## The handshake fallback -/

namespace ProxyHttp

/-- C13 (the code at the failing input): a well-formed `POST` with
`Content-Length: 4` and the body `a: b`.  The body is taken as a header line
too, so the request built carries a third header, `A: b`, besides `Host` and
`Content-Length`.  In the second request the value of `Origin`, `a: b`, is cut
at its own colon. -/
theorem handleWsShakehandErr_reads_body_as_header :
    handleWsShakehandErr parseHttp postWithBody =
        WsShakehand.request
          { Method := "POST", URL := ⟨"http", "echo.test", "/chat", ""⟩, Host := "echo.test",
            Header := [("A", ["b"]), ("Content-Length", ["4"]), ("Host", ["echo.test"])],
            Body := [97, 58, 32, 98], ContentLength := 4 } ∧
      handleWsShakehandErr parseHttp
          (stringBytes "GET /ws HTTP/1.1\r\nHost: echo.test\r\nOrigin: a: b\r\n\r\n") =
        WsShakehand.request
          { Method := "GET", URL := ⟨"http", "echo.test", "/ws", ""⟩, Host := "echo.test",
            Header := [("Origin", ["a"]), ("Host", ["echo.test"])],
            Body := [], ContentLength := 0 } := by
  decide

/-- C14 (the code at the failing inputs): a first line with a single token
followed by a `Host` header makes `wsMethodList[1]` an index out of range, and
a `Content-Length` larger than the input, or negative, makes
`rawInput[headerLen:]` a slice out of range. -/
theorem handleWsShakehandErr_panics :
    handleWsShakehandErr parseHttp (stringBytes "GET\r\nHost: echo.test\r\n\r\n") =
        WsShakehand.panic ∧
      handleWsShakehandErr parseHttp
          (stringBytes "GET / HTTP/1.1\r\nHost: echo.test\r\nContent-Length: 999\r\n\r\n") =
        WsShakehand.panic ∧
      handleWsShakehandErr parseHttp
          (stringBytes "GET / HTTP/1.1\r\nHost: echo.test\r\nContent-Length: -1\r\n\r\n") =
        WsShakehand.panic := by
  decide

end ProxyHttp

/-! ## The SOCKS5 request over a stream that arrives in segments -/

namespace ProxySocks5

namespace Segmented

/-- On an empty buffer `ReadByte` returns the first byte of the segments. -/
theorem nextByte_of_flatten (segments : List (List Nat)) (b : Nat) (s : List Nat)
    (h : segments.flatten = b :: s) :
    ∃ r, nextByte segments = some (b, r) ∧ r.stream = s := by
  induction segments with
  | nil => simp at h
  | cons segment segments ih =>
    cases segment with
    | nil =>
      simp only [List.flatten_cons, List.nil_append] at h
      obtain ⟨r, hr, hs⟩ := ih h
      exact ⟨r, by simp [nextByte, hr], hs⟩
    | cons c segment =>
      simp only [List.flatten_cons, List.cons_append, List.cons.injEq] at h
      obtain ⟨hc, hs⟩ := h
      subst hc
      exact ⟨⟨segment, segments⟩, by simp [nextByte], by simp [Reader.stream, hs]⟩

/-- `ReadByte` returns the first byte of the stream, however the stream is cut
into segments. -/
theorem ReadByte_of_stream (r : Reader) (b : Nat) (s : List Nat) (h : r.stream = b :: s) :
    ∃ r2, ReadByte r = some (b, r2) ∧ r2.stream = s := by
  obtain ⟨buffered, segments⟩ := r
  cases buffered with
  | nil =>
    simp only [Reader.stream, List.nil_append] at h
    obtain ⟨r2, hr, hs⟩ := nextByte_of_flatten segments b s h
    exact ⟨r2, by simp [ReadByte, hr], hs⟩
  | cons c buffered =>
    simp only [Reader.stream, List.cons_append, List.cons.injEq] at h
    obtain ⟨hc, hs⟩ := h
    subst hc
    exact ⟨⟨buffered, segments⟩, by simp [ReadByte], by simp [Reader.stream, hs]⟩

/-- Skipping `a` bytes and then `b` bytes is skipping `a + b` bytes. -/
theorem skip_add (a b : Nat) (r r1 : Reader) (h : skip a r = some r1) :
    skip (a + b) r = skip b r1 := by
  induction a generalizing r with
  | zero =>
    simp only [skip, Option.some.injEq] at h
    subst h
    simp
  | succ a ih =>
    rw [Nat.add_right_comm]
    simp only [skip] at h ⊢
    cases hb : ReadByte r with
    | none => simp [hb] at h
    | some br =>
      simp only [hb] at h ⊢
      exact ih br.2 h

/-- Bytes that are all in the buffer are skipped from the buffer. -/
theorem skip_buffered (n : Nat) (buffered : List Nat) (segments : List (List Nat))
    (h : n ≤ buffered.length) :
    skip n ⟨buffered, segments⟩ = some ⟨buffered.drop n, segments⟩ := by
  induction n generalizing buffered with
  | zero => simp [skip]
  | succ n ih =>
    cases buffered with
    | nil => simp at h
    | cons c buffered =>
      simp only [List.length_cons, Nat.add_le_add_iff_right] at h
      simp [skip, ReadByte, ih buffered h]

/-- A `Read` that returns as many bytes as asked for returns the next bytes of
the stream and leaves the reader where reading them one by one leaves it. -/
theorem Read_whole (n : Nat) (r r2 : Reader) (bytes : List Nat) (hn : 0 < n)
    (h : Read n r = some (bytes, r2)) (hlen : bytes.length = n) :
    r.stream = bytes ++ r2.stream ∧ skip n r = some r2 := by
  obtain ⟨buffered, segments⟩ := r
  cases buffered with
  | cons c buffered =>
    simp only [Read, Option.some.injEq, Prod.mk.injEq] at h
    obtain ⟨hb, hr⟩ := h
    subst hb hr
    have hle : n ≤ (c :: buffered).length := by
      rw [List.length_take] at hlen
      omega
    refine ⟨?_, skip_buffered n (c :: buffered) segments hle⟩
    simp only [Reader.stream]
    rw [← List.append_assoc, List.take_append_drop]
  | nil =>
    cases segments with
    | nil => simp [Read] at h
    | cons segment segments =>
      simp only [Read, Option.some.injEq, Prod.mk.injEq] at h
      obtain ⟨hb, hr⟩ := h
      subst hb hr
      have hle : n ≤ segment.length := by
        rw [List.length_take] at hlen
        omega
      refine ⟨?_, ?_⟩
      · simp only [Reader.stream, List.nil_append, List.flatten_cons]
        rw [← List.append_assoc, List.take_append_drop]
      · cases segment with
        | nil =>
          simp at hle
          omega
        | cons c segment =>
          obtain ⟨m, rfl⟩ : ∃ m, n = m + 1 := ⟨n - 1, by omega⟩
          simp only [List.length_cons, Nat.add_le_add_iff_right] at hle
          simp [skip, ReadByte, nextByte, skip_buffered m segment segments hle]

/-- One byte read after `k` bytes: the next byte of the stream, and `k + 1`
bytes are then read. -/
theorem ReadByte_after (k : Nat) (r0 r : Reader) (b : Nat) (s : List Nat)
    (hk : skip k r0 = some r) (h : r.stream = b :: s) :
    ∃ r2, ReadByte r = some (b, r2) ∧ r2.stream = s ∧ skip (k + 1) r0 = some r2 := by
  obtain ⟨r2, hr, hs⟩ := ReadByte_of_stream r b s h
  refine ⟨r2, hr, hs, ?_⟩
  rw [skip_add k 1 r0 r hk]
  simp [skip, hr]

/-- A block read after `k` bytes, when it is not cut by a short read: the
next `n` bytes of the stream, and `k + n` bytes are then read. -/
theorem Read_after (k n : Nat) (r0 r : Reader) (block s : List Nat) (hn : 0 < n)
    (hk : skip k r0 = some r) (hwhole : wholeAfter k n r0 = true)
    (h : r.stream = block ++ s) (hlen : block.length = n) :
    ∃ r2, Read n r = some (block, r2) ∧ r2.stream = s ∧ skip (k + n) r0 = some r2 := by
  unfold wholeAfter at hwhole
  rw [hk] at hwhole
  cases hr : Read n r with
  | none => simp [hr] at hwhole
  | some br =>
    obtain ⟨bytes, r2⟩ := br
    simp only [hr, beq_iff_eq] at hwhole
    obtain ⟨hstream, hskip⟩ := Read_whole n r r2 bytes hn hr hwhole
    rw [h] at hstream
    have hboth := List.append_inj hstream (by rw [hlen, hwhole])
    refine ⟨r2, ?_, hboth.2.symm, ?_⟩
    · rw [hboth.1]
    · rw [skip_add k n r0 r hk, hskip]

/-- The reply once the address and the port bytes are read: one dial, to the
address built; `05 01` alone when it fails, and `05 00 00`, the bound address
and the port bytes when it succeeds. -/
theorem reply_cases (net : Network) (command : Nat) (port hostname : String)
    (buffer : List Nat) :
    ∃ network tls,
      (reply net command port hostname buffer).dial = some (network, hostname, tls) ∧
      (reply net command port hostname buffer).target = net.Dial network hostname tls ∧
      (net.Dial network hostname tls = none →
        (reply net command port hostname buffer).flushed = [[5, 1]]) ∧
      (∀ host, net.Dial network hostname tls = some host →
        (reply net command port hostname buffer).flushed =
          [[5, 0, 0] ++ boundAddress net host hostname ++ buffer]) := by
  have hname : (dialTarget command port hostname).2.1 = hostname := by
    unfold dialTarget
    split_ifs <;> rfl
  have htriple : dialTarget command port hostname =
      ((dialTarget command port hostname).1, hostname,
        (dialTarget command port hostname).2.2) := by
    unfold dialTarget
    split_ifs <;> rfl
  refine ⟨(dialTarget command port hostname).1, (dialTarget command port hostname).2.2, ?_⟩
  unfold reply
  rw [hname]
  cases hd : net.Dial (dialTarget command port hostname).1 hostname
      (dialTarget command port hostname).2.2 with
  | none =>
    refine ⟨congrArg some htriple, rfl, fun _ => ?_, fun host h => ?_⟩
    · simp [Version]
    · cases h
  | some host =>
    refine ⟨congrArg some htriple, rfl, fun h => ?_, fun host2 h => ?_⟩
    · cases h
    · cases h
      simp [Version, Rsv]

/-- On a well-formed address that no short read cuts, the `switch targetType`
reads exactly the address and yields a host name. -/
theorem readAddress_whole (net : Network) (targetType : Nat) (address tail : List Nat)
    (r0 r : Reader) (hk : skip 4 r0 = some r) (hstream : r.stream = address ++ tail)
    (haddr : (targetType = 1 ∧ address.length = 4 ∧ wholeAfter 4 4 r0 = true) ∨
      (targetType = 4 ∧ address.length = 16 ∧ wholeAfter 4 16 r0 = true) ∨
      (targetType = 3 ∧ ∃ name, name ≠ [] ∧ address = name.length :: name ∧
        wholeAfter 5 name.length r0 = true)) :
    ∃ hostname r2, readAddress net targetType r = some (hostname, r2) ∧ r2.stream = tail ∧
      skip (4 + address.length) r0 = some r2 := by
  rcases haddr with ⟨ht, hl, hw⟩ | ⟨ht, hl, hw⟩ | ⟨ht, name, hname, hl, hw⟩
  · subst ht
    obtain ⟨r2, hr, hs, hskip⟩ := Read_after 4 4 r0 r address tail (by decide) hk hw hstream hl
    rw [hl]
    exact ⟨net.IPString address, r2, by simp [readAddress, TargetIpv4, hr, hl], hs, hskip⟩
  · subst ht
    obtain ⟨r2, hr, hs, hskip⟩ :=
      Read_after 4 16 r0 r address tail (by decide) hk hw hstream hl
    rw [hl]
    exact ⟨net.IPString address, r2,
      by simp [readAddress, TargetIpv4, TargetIpv6, hr, hl], hs, hskip⟩
  · subst ht
    subst hl
    have hpos : 0 < name.length := List.length_pos.mpr hname
    obtain ⟨r1, hb, hs1, hskip1⟩ :=
      ReadByte_after 4 r0 r name.length (name ++ tail) hk (by simpa using hstream)
    obtain ⟨r2, hr, hs, hskip⟩ :=
      Read_after 5 name.length r0 r1 name tail hpos hskip1 hw hs1 rfl
    have hnot : ¬ name.length ≤ 0 := by omega
    have hname2 : ¬ name = [] := hname
    refine ⟨(net.ResolveIPAddr (bytesString name)).getD (bytesString name), r2, ?_, hs, ?_⟩
    · simp [readAddress, TargetIpv4, TargetIpv6, TargetDomain, hb, hr, hname2]
    · rw [← hskip]
      congr 1
      simp only [List.length_cons]
      omega

/-- C7 (as stated, refuted): three well-formed `CONNECT` requests to
`127.0.0.1`.  When the dial fails the reply is the two bytes `05 01` and
nothing more.  When the second port byte arrives in a later segment than the
first, the port bytes `01 BB` are read as `01 00`: port 256 is dialled and
`01 00` is echoed.  When the address is cut by a segment boundary no reply is
written at all. -/
theorem request_reply_incomplete :
    ((request deadNetwork ⟨[5, 1, 0, 1, 127, 0, 0, 1, 0, 80], []⟩).flushed = [[5, 1]] ∧
      ¬ ∃ rep atyp addr,
        (request deadNetwork ⟨[5, 1, 0, 1, 127, 0, 0, 1, 0, 80], []⟩).flushed =
          [[5, rep, 0, atyp] ++ addr ++ [0, 80]]) ∧
    request loopbackNetwork ⟨[5, 1, 0, 1, 127, 0, 0, 1, 1], [[187]]⟩ =
      ⟨[[5, 0, 0, 1, 127, 0, 0, 1, 1, 0]], some ("tcp", "127.0.0.1:256", false),
        some "127.0.0.1", true⟩ ∧
    (request loopbackNetwork ⟨[5, 1, 0, 1, 127, 0], [[0, 1, 1, 187]]⟩).flushed = [] := by
  have h : (request deadNetwork ⟨[5, 1, 0, 1, 127, 0, 0, 1, 0, 80], []⟩).flushed =
      [[5, 1]] := by
    decide
  refine ⟨⟨h, ?_⟩, by decide, by decide⟩
  rintro ⟨rep, atyp, addr, h2⟩
  rw [h] at h2
  simp at h2

/-- C7 (amended): for every well-formed request (`VER` 5, `CMD` in 1, 2, 3,
`RSV` 0, `ATYP` in 1, 3, 4 with its address, port bytes `p0 p1`), however it
is cut into segments, provided the read of the address and the read of the
port each return their bytes whole: the target is dialled once; when the dial
succeeds the reply is the complete sequence `05 00 00`, the bound address, and
the port bytes `p0 p1` as received; when it fails the reply is the two bytes
`05 01` alone. -/
theorem request_reply (net : Network) (r : Reader) (command targetType : Nat)
    (address : List Nat) (p0 p1 : Nat) (rest : List Nat)
    (hstream : r.stream = 5 :: command :: 0 :: targetType :: (address ++ p0 :: p1 :: rest))
    (hcmd : command = 1 ∨ command = 2 ∨ command = 3)
    (haddr : (targetType = 1 ∧ address.length = 4 ∧ wholeAfter 4 4 r = true) ∨
      (targetType = 4 ∧ address.length = 16 ∧ wholeAfter 4 16 r = true) ∨
      (targetType = 3 ∧ ∃ name, name ≠ [] ∧ address = name.length :: name ∧
        wholeAfter 5 name.length r = true))
    (hport : wholeAfter (4 + address.length) 2 r = true) :
    ∃ network hostname tls,
      (request net r).dial = some (network, hostname, tls) ∧
      (request net r).target = net.Dial network hostname tls ∧
      (net.Dial network hostname tls = none → (request net r).flushed = [[5, 1]]) ∧
      (∀ host, net.Dial network hostname tls = some host →
        (request net r).flushed =
          [[5, 0, 0] ++ boundAddress net host hostname ++ [p0, p1]]) := by
  obtain ⟨r1, hb1, hs1, hk1⟩ := ReadByte_after 0 r r 5 _ rfl hstream
  obtain ⟨r2, hb2, hs2, hk2⟩ := ReadByte_after 1 r r1 command _ hk1 hs1
  obtain ⟨r3, hb3, hs3, hk3⟩ := ReadByte_after 2 r r2 0 _ hk2 hs2
  obtain ⟨r4, hb4, hs4, hk4⟩ := ReadByte_after 3 r r3 targetType _ hk3 hs3
  obtain ⟨host0, r5, hra, hs5, hk5⟩ :=
    readAddress_whole net targetType address (p0 :: p1 :: rest) r r4 hk4 hs4 haddr
  obtain ⟨r6, hread, _, _⟩ :=
    Read_after (4 + address.length) 2 r r5 [p0, p1] rest (by decide) hk5 hport hs5 rfl
  have hc : ¬ (command ≠ CommandConn ∧ command ≠ CommandBind ∧ command ≠ CommandUdp) := by
    unfold CommandConn CommandBind CommandUdp
    omega
  have ht : ¬ (targetType ≠ TargetIpv4 ∧ targetType ≠ TargetIpv6 ∧
      targetType ≠ TargetDomain) := by
    unfold TargetIpv4 TargetIpv6 TargetDomain
    rcases haddr with ⟨h, _⟩ | ⟨h, _⟩ | ⟨h, _⟩ <;> omega
  have hreq : request net r =
      reply net command (toString (ByteToInt [p0, p1]))
        (host0 ++ ":" ++ toString (ByteToInt [p0, p1])) [p0, p1] := by
    unfold request
    simp only [hb1, hb2, hb3, hb4, Version, Rsv, ne_eq, not_true_eq_false, if_false, hc, ht,
      hra, hread]
    rfl
  rw [hreq]
  obtain ⟨network, tls, h1, h2, h3, h4⟩ := reply_cases net command
    (toString (ByteToInt [p0, p1])) (host0 ++ ":" ++ toString (ByteToInt [p0, p1])) [p0, p1]
  exact ⟨network, _, tls, h1, h2, h3, h4⟩

/-- C7 (amended), at a concrete request that arrives in six segments, one of
them empty, with the address in a segment of its own and the port bytes at
the head of the last: the reply is complete and echoes the port bytes
`01 BB`. -/
theorem request_reply_witness :
    (request loopbackNetwork ⟨[5], [[1, 0], [], [1], [127, 0, 0, 1], [1, 187, 9]]⟩).flushed =
      [[5, 0, 0, 1, 127, 0, 0, 1, 1, 187]] := by
  obtain ⟨network, hostname, tls, _, _, _, hok⟩ :=
    request_reply loopbackNetwork ⟨[5], [[1, 0], [], [1], [127, 0, 0, 1], [1, 187, 9]]⟩
      1 1 [127, 0, 0, 1] 1 187 [9] (by decide) (Or.inl rfl)
      (Or.inl ⟨rfl, rfl, by decide⟩) (by decide)
  have h4 : IpV4 loopbackNetwork "127.0.0.1" = true := by decide
  have h6 : IpV6 loopbackNetwork "127.0.0.1" = false := by decide
  have hb : ((loopbackNetwork.ParseIP "127.0.0.1").bind To4).getD [] = [127, 0, 0, 1] := by
    decide
  rw [hok "127.0.0.1" rfl]
  simp [boundAddress, h4, h6, hb, TargetIpv4]

/-- On a reader that holds the whole stream in its buffer, `ReadByte` is the
`ReadByte` of the list of bytes. -/
theorem ReadByte_buffered (reader : List Nat) :
    ReadByte ⟨reader, []⟩ =
      (ProxySocks5.ReadByte reader).map (fun br => (br.1, (⟨br.2, []⟩ : Reader))) := by
  cases reader <;> simp [ReadByte, nextByte, ProxySocks5.ReadByte]

/-- On a reader that holds the whole stream in its buffer, `Read` is the
`Read` of the list of bytes. -/
theorem Read_buffered (n : Nat) (reader : List Nat) :
    Read n ⟨reader, []⟩ =
      (ProxySocks5.Read n reader).map (fun br => (br.1, (⟨br.2, []⟩ : Reader))) := by
  cases reader <;> simp [Read, ProxySocks5.Read]

/-- On a reader that holds the whole stream in its buffer, the address is
read as from the list of bytes. -/
theorem readAddress_buffered (net : Network) (targetType : Nat) (reader : List Nat) :
    readAddress net targetType ⟨reader, []⟩ =
      (ProxySocks5.readAddress net targetType reader).map
        (fun hr => (hr.1, (⟨hr.2, []⟩ : Reader))) := by
  unfold readAddress ProxySocks5.readAddress
  simp only [Read_buffered, ReadByte_buffered]
  split_ifs
  · cases ProxySocks5.Read 4 reader with
    | none => rfl
    | some br => simp only [Option.map_some']; split_ifs <;> rfl
  · cases ProxySocks5.Read 16 reader with
    | none => rfl
    | some br => simp only [Option.map_some']; split_ifs <;> rfl
  · cases ProxySocks5.ReadByte reader with
    | none => rfl
    | some br =>
      simp only [Option.map_some', Read_buffered]
      split_ifs
      · rfl
      · cases ProxySocks5.Read br.1 br.2 with
        | none => rfl
        | some br2 => simp only [Option.map_some']; split_ifs <;> rfl
  · rfl

/-- The request phase on a reader that holds the whole stream in its buffer
is the request phase on the list of bytes. -/
theorem request_buffered (net : Network) (reader : List Nat) :
    request net ⟨reader, []⟩ = ProxySocks5.request net reader := by
  unfold request ProxySocks5.request
  simp only [ReadByte_buffered]
  cases ProxySocks5.ReadByte reader with
  | none => rfl
  | some b1 =>
    simp only [Option.map_some', ReadByte_buffered]
    split_ifs
    · rfl
    · cases ProxySocks5.ReadByte b1.2 with
      | none => rfl
      | some b2 =>
        simp only [Option.map_some', ReadByte_buffered]
        split_ifs
        · rfl
        · cases ProxySocks5.ReadByte b2.2 with
          | none => rfl
          | some b3 =>
            simp only [Option.map_some', ReadByte_buffered]
            split_ifs
            · rfl
            · cases ProxySocks5.ReadByte b3.2 with
              | none => rfl
              | some b4 =>
                simp only [Option.map_some', readAddress_buffered]
                split_ifs
                · rfl
                · cases ProxySocks5.readAddress net b4.1 b4.2 with
                  | none => rfl
                  | some hr =>
                    simp only [Option.map_some', Read_buffered]
                    cases ProxySocks5.Read 2 hr.2 with
                    | none => rfl
                    | some br => rfl

end Segmented

end ProxySocks5

end Core
